import Mathlib

/-!
# hishtory client core (`client/lib/lib.go`)

A shallow embedding of the client library: the history-entry record, the
local cache with its insert-if-new operation, the configuration store, the
capture path (`BuildHistoryEntry`), the first-time `Setup`, `Install` and the
self-`Update`.

Conventions of the embedding.

* Go strings are Lean `String`s; the functions of package `strings` that the
  source calls are defined on character lists.
* A Go call that returns `(value, error)` becomes a `Res`: `ok v`,
  `error msg` (a non-nil `error`; `msg` is the fixed part of the message) or
  `panic` (a run-time panic such as an index out of range).
* Everything the process reads or changes outside its own variables (the
  environment, the file system, the database table, the network, the random
  source) is a field of `World`; a function that has effects takes a `World`
  and returns the new one together with its result.
* Timestamps are integers.
* Statements on the database succeed once the database is open (the source
  does not look at their errors).
-/

namespace Hishtory

/-! ## Package `strings` -/

/-- Go `strings.HasPrefix`. -/
def hasPrefix (s pre : String) : Bool :=
  pre.data.isPrefixOf s.data

/-- Go `strings.HasSuffix`. -/
def hasSuffix (s suf : String) : Bool :=
  suf.data.isSuffixOf s.data

/-- Go `strings.TrimSuffix`: `s` without the trailing `suf`, when it ends
with it, and `s` itself otherwise. -/
def trimSuffix (s suf : String) : String :=
  if hasSuffix s suf then ⟨s.data.take (s.data.length - suf.data.length)⟩ else s

/-- Replaces the leftmost occurrence of `old` in a character list. -/
def replaceFirstChars (old new : List Char) : List Char → List Char
  | [] => if old.isEmpty then new else []
  | c :: cs =>
    if old.isPrefixOf (c :: cs) then new ++ (c :: cs).drop old.length
    else c :: replaceFirstChars old new cs

/-- Go `strings.Replace(s, old, new, 1)`. -/
def replaceFirst (s old new : String) : String :=
  ⟨replaceFirstChars old.data new.data s.data⟩

/-- Go `unicode.IsSpace`. -/
def isSpace (c : Char) : Bool :=
  let n := c.toNat
  (9 ≤ n && n ≤ 13) || n = 0x20 || n = 0x85 || n = 0xA0 || n = 0x1680 ||
  (0x2000 ≤ n && n ≤ 0x200A) || n = 0x2028 || n = 0x2029 || n = 0x202F ||
  n = 0x205F || n = 0x3000

/-- Go `strings.TrimSpace`. -/
def trimSpace (s : String) : String :=
  ⟨((s.data.dropWhile isSpace).reverse.dropWhile isSpace).reverse⟩

/-- Go `strings.SplitN(s, " ", 2)`: the parts before and after the first
space, or the whole string alone when it has no space. -/
def splitN2 (s : String) : List String :=
  match s.data.span (fun c => c != ' ') with
  | (_, []) => [s]
  | (before, _ :: after) => [⟨before⟩, ⟨after⟩]

/-- Value of a string of decimal digits, `none` if one is not a digit. -/
def digitsValue : List Char → Nat → Option Nat
  | [], acc => some acc
  | c :: cs, acc =>
    if c.isDigit then digitsValue cs (acc * 10 + (c.toNat - 48)) else none

/-- Go `strconv.ParseInt(s, 10, 64)`: an optional sign and at least one
decimal digit, in the range of a 64-bit integer. -/
def parseInt (s : String) : Option Int :=
  let body : Bool × List Char :=
    match s.data with
    | '-' :: cs => (true, cs)
    | '+' :: cs => (false, cs)
    | cs => (false, cs)
  if body.2.isEmpty then none
  else
    match digitsValue body.2 0 with
    | none => none
    | some n =>
      let v : Int := if body.1 then -(n : Int) else (n : Int)
      if -(2 : Int) ^ 63 ≤ v ∧ v < (2 : Int) ^ 63 then some v else none

/-- Go `strconv.Atoi` on a 64-bit platform. -/
def atoi (s : String) : Option Int :=
  parseInt s

/-! ## Results -/

/-- Outcome of a Go call: a value, a non-nil `error`, or a panic. -/
inductive Res (α : Type) where
  | ok (a : α)
  | error (msg : String)
  | panic
  deriving DecidableEq, Repr

/-! ## Data model -/

/-- Modelled from the spec: the record `data.HistoryEntry` (declared in
package `data`, outside this excerpt), with the seven fields that
`AddToDbIfNew` compares; the exit code is an integer and the two times are
timestamps. -/
structure HistoryEntry where
  LocalUsername : String
  Hostname : String
  Command : String
  CurrentWorkingDirectory : String
  ExitCode : Int
  StartTime : Int
  EndTime : Int
  deriving DecidableEq, Repr

/-- The record `ClientConfig`. -/
structure ClientConfig where
  UserSecret : String
  IsEnabled : Bool
  DeviceId : String
  LastSavedHistoryLine : String
  deriving DecidableEq, Repr

/-! ## Local cache -/

/-- The `WHERE` clause that `AddToDbIfNew` builds: a row matches when it
equals the entry in each of the seven columns. -/
def rowMatches (entry row : HistoryEntry) : Bool :=
  row.LocalUsername == entry.LocalUsername &&
  row.Hostname == entry.Hostname &&
  row.Command == entry.Command &&
  row.CurrentWorkingDirectory == entry.CurrentWorkingDirectory &&
  row.ExitCode == entry.ExitCode &&
  row.StartTime == entry.StartTime &&
  row.EndTime == entry.EndTime

/-- Source function `AddToDbIfNew` on the rows of table `history_entries`:
select the rows matching the entry, limit 1, and create the entry when none
was found. -/
def AddToDbIfNew (db : List HistoryEntry) (entry : HistoryEntry) : List HistoryEntry :=
  let results := (db.filter (rowMatches entry)).take 1
  if results.length = 0 then db ++ [entry] else db

/-! ## The world outside the process -/

/-- Modelled from the spec: the wire form `shared.EncHistoryEntry` (declared
in package `shared`, outside this excerpt): the encrypted payload, tagged
with the user id derived from the secret and a device id. -/
structure EncHistoryEntry where
  EncryptedData : String
  Nonce : String
  DeviceId : String
  UserId : String
  deriving DecidableEq, Repr

/-- Modelled from the spec: the record `shared.UpdateInfo` (declared in
package `shared`, outside this excerpt): the version and, per platform, the
URL of the binary and of its attestation document, under the field names
that `Update` and `downloadFiles` read. -/
structure UpdateInfo where
  Version : String
  LinuxAmd64Url : String
  LinuxAmd64AttestationUrl : String
  DarwinAmd64Url : String
  DarwinAmd64AttestationUrl : String
  DarwinArm64Url : String
  DarwinArm64AttestationUrl : String
  deriving DecidableEq, Repr

/-- Functions of other packages that the library calls: the JSON codec, the
user id derivation, decryption and the provenance check. They are parameters
of the embedding. -/
structure Ext where
  /-- Go `json.Marshal` of a `ClientConfig` (it has no failing case on a record
  of strings and a boolean). -/
  marshalConfig : ClientConfig → String
  /-- Go `json.Unmarshal` into a `ClientConfig`; `none` is a parse failure. -/
  unmarshalConfig : String → Option ClientConfig
  /-- Go `json.Unmarshal` into `[]*shared.EncHistoryEntry`. -/
  unmarshalEntries : String → Option (List EncHistoryEntry)
  /-- Go `json.Unmarshal` into `shared.UpdateInfo`. -/
  unmarshalUpdateInfo : String → Option UpdateInfo
  /-- Function `data.UserId`. -/
  UserId : String → String
  /-- Function `data.DecryptHistoryEntry`; `none` is a decryption failure. -/
  DecryptHistoryEntry : String → EncHistoryEntry → Option HistoryEntry
  /-- Function `verifyBinary` on the contents of the downloaded binary and
  of the attestation document and on the expected subject; `true` is a nil
  error. -/
  verifyBinary : Option String → Option String → String → Bool

/-- What an HTTP exchange gives: a transport failure, or a status with a
body (`none` when reading the body fails). -/
inductive HttpResult where
  | transportError
  | response (status : Nat) (body : Option String)
  deriving DecidableEq, Repr

/-- System calls whose success the environment decides. -/
inductive SysOp where
  | mkdirHishtoryDir
  | readDirHishtory
  | readConfig
  | writeConfig
  | openLog
  | openDb
  | pingDb
  | writeShellConfig
  | readRc
  | appendRc
  | unlinkBinary
  | copyBinary
  | chmodBinary
  | createTmp
  | copyBody
  | chmodTmp
  | runInstall
  deriving DecidableEq, Repr

/-- Observable effects, recorded in the order they happen. -/
inductive Effect where
  | httpGet (url : String)
  | httpPost (url : String)
  | print (line : String)
  | logPrintf (line : String)
  | writeConfig (contents : String)
  | createFile (path : String)
  | verifyBinary (subject : String) (ok : Bool)
  | unlink (path : String)
  | copyFile (src dst : String)
  | run (cmd : String) (args : List String)
  deriving DecidableEq, Repr

/-- State of the machine and of the process. -/
structure World where
  /-- Go `runtime.GOOS` and `runtime.GOARCH`. -/
  GOOS : String
  GOARCH : String
  /-- The package variable `Version`. -/
  Version : String
  /-- Go `os.Args`. -/
  osArgs : List String
  /-- Results of `os.UserHomeDir`, `os.Getwd`, `user.Current`, `os.Hostname`
  (`none`: the lookup fails) and of `time.Now`. -/
  homedir : Option String
  getwd : Option String
  currentUser : Option String
  osHostname : Option String
  now : Int
  /-- Environment variables `HISHTORY_SERVER` and `HISHTORY_TEST`. -/
  HISHTORY_SERVER : String
  HISHTORY_TEST : String
  /-- Values the random source will give to `uuid.NewRandom`, in order; when
  none is left the call fails. -/
  uuids : List String
  /-- Which system calls succeed. -/
  sysOk : SysOp → Bool
  /-- Contents of the config file, `none` when it does not exist. -/
  configFile : Option String
  /-- Contents of `~/.bashrc` and `~/.zshrc`, `none` when absent. -/
  bashrc : Option String
  zshrc : Option String
  /-- Where `exec.LookPath("hishtory")` finds the binary, if it does. -/
  lookPath : Option String
  /-- Paths at which an installed binary exists. -/
  binaries : List String
  /-- Contents of `/tmp/hishtory-client` and of its attestation document. -/
  tmpClient : Option String
  tmpAttestation : Option String
  /-- Rows of table `history_entries`. -/
  history_entries : List HistoryEntry
  /-- The servers: what a GET of a URL and a POST to a URL give. -/
  httpGet : String → HttpResult
  httpPost : String → String → String → HttpResult
  /-- The variables `getLoggerOnce` (has `Do` run) and `hishtoryLogger`
  (is it non-nil). -/
  getLoggerOnce : Bool
  hishtoryLogger : Bool
  /-- Effects so far, oldest first. -/
  trace : List Effect

/-- Records an effect. -/
def World.emit (w : World) (e : Effect) : World :=
  { w with trace := w.trace ++ [e] }

/-- Modelled from the spec: the constant `shared.HISHTORY_PATH` (declared
in package `shared`, outside this excerpt), the fixed per-user directory;
the messages of the source call it `~/.hishtory/`. -/
def HISHTORY_PATH : String := ".hishtory"

/-- The components of a path, which slashes separate. -/
def splitSlash : List Char → List (List Char)
  | [] => [[]]
  | c :: cs =>
    match splitSlash cs with
    | [] => [[c]]
    | first :: rest => if c = '/' then [] :: first :: rest else (c :: first) :: rest

/-- One component in Go `path.Clean`; `stack` holds the components kept so
far, the last one first. An empty component and `.` are dropped; `..`
removes the component before it, is dropped at the root, and is kept at the
start of a relative path. -/
def cleanStep (rooted : Bool) (stack : List (List Char)) (comp : List Char) :
    List (List Char) :=
  if comp = [] ∨ comp = ['.'] then stack
  else if comp = ['.', '.'] then
    match stack with
    | top :: below => if top = ['.', '.'] then comp :: stack else below
    | [] => if rooted then [] else [comp]
  else comp :: stack

/-- Go `path.Clean`. -/
def pathClean (p : String) : String :=
  let rooted : Bool := p.data.head? == some '/'
  let stack := (splitSlash p.data).foldl (cleanStep rooted) []
  let body := "/".intercalate (stack.reverse.map String.mk)
  let out := if rooted then "/" ++ body else body
  if out = "" then "." else out

/-- Go `path.Join`: the elements from the first non-empty one on, separated
by slashes, cleaned; the empty string when all are empty. -/
def pathJoin (elems : List String) : String :=
  match elems.dropWhile (fun e => e == "") with
  | [] => ""
  | rest => pathClean ("/".intercalate rest)

/-! ## ConfigStore -/

/-- Source function `GetConfig`. -/
def GetConfig (x : Ext) (w : World) : Res ClientConfig :=
  match w.homedir with
  | none => .error "failed to retrieve homedir"
  | some _ =>
    match (if w.sysOk .readConfig then w.configFile else none) with
    | none =>
      if w.sysOk .readDirHishtory then .error "failed to read config file (files in ~/.hishtory/)"
      else .error "failed to read config file (and failed to list too)"
    | some data =>
      match x.unmarshalConfig data with
      | none => .error "failed to parse config file"
      | some config => .ok config

/-- Source function `SetConfig`. -/
def SetConfig (x : Ext) (w : World) (config : ClientConfig) : World × Res Unit :=
  let serializedConfig := x.marshalConfig config
  match w.homedir with
  | none => (w, .error "failed to retrieve homedir")
  | some _ =>
    if !w.sysOk .mkdirHishtoryDir then (w, .error "failed to create ~/.hishtory/ folder")
    else if !w.sysOk .writeConfig then (w, .error "failed to write config")
    else
      (({ w with configFile := some serializedConfig }).emit (.writeConfig serializedConfig),
        .ok ())

/-! ## Command capture -/

/-- Source function `getCwd`. -/
def getCwd (w : World) : Res String :=
  match w.getwd with
  | none => .error "failed to get cwd for last command"
  | some cwd =>
    match w.homedir with
    | none => .error "failed to get user's home directory"
    | some homedir =>
      if cwd = homedir then .ok "~/"
      else if hasPrefix cwd homedir then .ok (replaceFirst cwd homedir "~")
      else .ok cwd

/-- Source function `parseCrossPlatformInt`. -/
def parseCrossPlatformInt (data : String) : Option Int :=
  parseInt (trimSuffix data "N")

/-- Source function `getLastCommand`: the second part of the split, split
again, second part; `none` when an index is out of range (the returned
error is always nil). -/
def getLastCommand (history : String) : Option String :=
  match (splitN2 (trimSpace history))[1]? with
  | none => none
  | some rest => (splitN2 rest)[1]?

/-- Source function `shouldSkipHiddenCommand`. -/
def shouldSkipHiddenCommand (x : Ext) (w : World) (historyLine : String) : World × Res Bool :=
  match GetConfig x w with
  | .error msg => (w, .error msg)
  | .panic => (w, .panic)
  | .ok config =>
    if config.LastSavedHistoryLine = historyLine then (w, .ok true)
    else
      match SetConfig x w { config with LastSavedHistoryLine := historyLine } with
      | (w1, .error msg) => (w1, .error msg)
      | (w1, .panic) => (w1, .panic)
      | (w1, .ok _) => (w1, .ok false)

/-- Source function `BuildHistoryEntry`: `ok none` is the return `nil, nil`. -/
def BuildHistoryEntry (x : Ext) (w : World) (args : List String) :
    World × Res (Option HistoryEntry) :=
  match args[2]? with
  | none => (w, .panic)
  | some shell =>
  match args[3]? with
  | none => (w, .panic)
  | some a3 =>
  match atoi a3 with
  | none => (w, .error "failed to build history entry")
  | some exitCode =>
  match w.currentUser with
  | none => (w, .error "failed to build history entry")
  | some user =>
  match getCwd w with
  | .error _ => (w, .error "failed to build history entry")
  | .panic => (w, .panic)
  | .ok cwd =>
  match args[5]? with
  | none => (w, .panic)
  | some a5 =>
  match parseCrossPlatformInt a5 with
  | none => (w, .error "failed to parse start time as int")
  | some seconds =>
  match args[4]? with
  | none => (w, .panic)
  | some a4 =>
  let entry : HistoryEntry :=
    { LocalUsername := user, Hostname := "", Command := "", CurrentWorkingDirectory := cwd,
      ExitCode := exitCode, StartTime := seconds, EndTime := w.now }
  if shell = "bash" then
    match getLastCommand a4 with
    | none => (w, .panic)
    | some cmd =>
      match shouldSkipHiddenCommand x w a4 with
      | (w1, .error _) => (w1, .error "failed to check if command was hidden")
      | (w1, .panic) => (w1, .panic)
      | (w1, .ok shouldBeSkipped) =>
        if shouldBeSkipped || hasPrefix cmd " " then (w1, .ok none)
        else
          match w1.osHostname with
          | none => (w1, .error "failed to build history entry")
          | some hostname => (w1, .ok (some { entry with Command := cmd, Hostname := hostname }))
  else if shell = "zsh" then
    let cmd := trimSuffix (trimSuffix a4 "\n") " "
    if hasPrefix cmd " " then (w, .ok none)
    else
      match w.osHostname with
      | none => (w, .error "failed to build history entry")
      | some hostname => (w, .ok (some { entry with Command := cmd, Hostname := hostname }))
  else (w, .error "tried to save a hishtory entry from an unsupported shell")

/-! ## SyncClient -/

/-- Source function `getServerHostname`. -/
def getServerHostname (w : World) : String :=
  if w.HISHTORY_SERVER != "" then w.HISHTORY_SERVER else "https://api.hishtory.dev"

/-- Source function `getLogger`: the first call opens the log file and
panics when it cannot; `sync.Once` counts a panicking call as done, so that later calls
return the variable as it is. The result says whether the logger is
non-nil. -/
def getLogger (w : World) : World × Res Bool :=
  if w.getLoggerOnce then (w, .ok w.hishtoryLogger)
  else
    let w1 := { w with getLoggerOnce := true }
    match w1.homedir with
    | none => (w1, .panic)
    | some _ =>
      if !w1.sysOk .openLog then (w1, .panic)
      else ({ w1 with hishtoryLogger := true }, .ok true)

/-- The call `getLogger().Printf(...)`: a call on a nil logger panics. -/
def logPrintf (w : World) (line : String) : World × Res Unit :=
  match getLogger w with
  | (w1, .panic) => (w1, .panic)
  | (w1, .error msg) => (w1, .error msg)
  | (w1, .ok false) => (w1, .panic)
  | (w1, .ok true) => (w1.emit (.logPrintf line), .ok ())

/-- Source function `ApiGet`. -/
def ApiGet (w : World) (path : String) : World × Res String :=
  let w1 := w.emit (.httpGet (getServerHostname w ++ path))
  match w.httpGet (getServerHostname w ++ path) with
  | .transportError => (w1, .error "failed to GET")
  | .response status body =>
    if status ≠ 200 then (w1, .error "failed to GET: status_code")
    else
      match body with
      | none => (w1, .error "failed to read response body from GET")
      | some respBody =>
        match logPrintf w1 ("ApiGet(" ++ path ++ ")") with
        | (w2, .panic) => (w2, .panic)
        | (w2, .error msg) => (w2, .error msg)
        | (w2, .ok _) => (w2, .ok respBody)

/-- Source function `ApiPost`. -/
def ApiPost (w : World) (path contentType data : String) : World × Res String :=
  let w1 := w.emit (.httpPost (getServerHostname w ++ path))
  match w.httpPost (getServerHostname w ++ path) contentType data with
  | .transportError => (w1, .error "failed to POST")
  | .response status body =>
    if status ≠ 200 then (w1, .error "failed to POST: status_code")
    else
      match body with
      | none => (w1, .error "failed to read response body from POST")
      | some respBody =>
        match logPrintf w1 ("ApiPost(" ++ path ++ ")") with
        | (w2, .panic) => (w2, .panic)
        | (w2, .error msg) => (w2, .error msg)
        | (w2, .ok _) => (w2, .ok respBody)

/-- Source function `OpenLocalSqliteDb`; the handle it returns is the
table `history_entries` of the world. -/
def OpenLocalSqliteDb (w : World) : World × Res Unit :=
  match w.homedir with
  | none => (w, .error "failed to get user's home directory")
  | some _ =>
    if !w.sysOk .mkdirHishtoryDir then (w, .error "failed to create ~/.hishtory dir")
    else
      match getLogger w with
      | (w1, .panic) => (w1, .panic)
      | (w1, .error msg) => (w1, .error msg)
      | (w1, .ok _) =>
        if !w1.sysOk .openDb then (w1, .error "failed to connect to the DB")
        else if !w1.sysOk .pingDb then (w1, .error "failed to ping the DB")
        else (w1, .ok ())

/-! ## Setup -/

/-- Go `uuid.NewRandom`: the next value of the random source. -/
def newRandom (w : World) : World × Option String :=
  match w.uuids with
  | [] => (w, none)
  | u :: rest => ({ w with uuids := rest }, some u)

/-- The loop of `Setup` over the retrieved entries: decrypt, return at the
first failure, otherwise `AddToDbIfNew`. -/
def bootstrapEntries (x : Ext) (userSecret : String) :
    World → List EncHistoryEntry → World × Res Unit
  | w, [] => (w, .ok ())
  | w, entry :: rest =>
    match x.DecryptHistoryEntry userSecret entry with
    | none => (w, .error "failed to decrypt history entry from server")
    | some decEntry =>
      bootstrapEntries x userSecret
        { w with history_entries := AddToDbIfNew w.history_entries decEntry } rest

/-- The first lines of `Setup`: the user secret is the fresh identifier,
replaced by `args[2]` when `len(args) > 2` and `args[2]` is not empty. -/
def userSecretOf (args : List String) (fresh : String) : String :=
  match args[2]? with
  | some a2 => if args.length > 2 && a2 != "" then a2 else fresh
  | none => fresh

/-- Source function `Setup`. -/
def Setup (x : Ext) (w : World) (args : List String) : World × Res Unit :=
  match newRandom w with
  | (w1, none) => (w1, .panic)
  | (w1, some fresh) =>
  let userSecret := userSecretOf args fresh
  let w2 := w1.emit (.print ("Setting secret hishtory key to " ++ userSecret))
  match newRandom w2 with
  | (w3, none) => (w3, .panic)
  | (w3, some deviceId) =>
  let config : ClientConfig :=
    { UserSecret := userSecret, IsEnabled := true, DeviceId := deviceId,
      LastSavedHistoryLine := "" }
  match SetConfig x w3 config with
  | (w4, .error _) => (w4, .error "failed to persist config to disk")
  | (w4, .panic) => (w4, .panic)
  | (w4, .ok _) =>
  match OpenLocalSqliteDb w4 with
  | (w5, .error _) => (w5, .error "failed to open DB")
  | (w5, .panic) => (w5, .panic)
  | (w5, .ok _) =>
  let w6 := { w5 with history_entries := [] }
  match ApiGet w6 ("/api/v1/eregister?user_id=" ++ x.UserId userSecret ++ "&device_id=" ++
      config.DeviceId) with
  | (w7, .error _) => (w7, .error "failed to register device with backend")
  | (w7, .panic) => (w7, .panic)
  | (w7, .ok _) =>
  match ApiGet w7 ("/api/v1/ebootstrap?user_id=" ++ x.UserId userSecret ++ "&device_id=" ++
      config.DeviceId) with
  | (w8, .error _) => (w8, .error "failed to bootstrap device from the backend")
  | (w8, .panic) => (w8, .panic)
  | (w8, .ok respBody) =>
  match x.unmarshalEntries respBody with
  | none => (w8, .error "failed to load JSON response")
  | some retrievedEntries => bootstrapEntries x userSecret w8 retrievedEntries

/-! ## Installer -/

/-- Go `strings.Contains` on character lists. -/
def containsChars (sub : List Char) : List Char → Bool
  | [] => sub.isEmpty
  | c :: cs => sub.isPrefixOf (c :: cs) || containsChars sub cs

/-- Go `strings.Contains`. -/
def contains (s sub : String) : Bool :=
  containsChars sub.data s.data

/-- Source function `installBinary`; `copyFile` and `os.Chmod` are single
system calls here. -/
def installBinary (w : World) (homedir : String) : World × Res String :=
  let clientPath :=
    match w.lookPath with
    | some found => found
    | none => pathJoin [homedir, HISHTORY_PATH, "hishtory"]
  let unlinked : World × Res Unit :=
    if clientPath ∈ w.binaries then
      if !w.sysOk .unlinkBinary then
        (w.emit (.unlink clientPath), .error "failed to unlink for install")
      else (({ w with binaries := w.binaries.erase clientPath }).emit (.unlink clientPath), .ok ())
    else (w, .ok ())
  match unlinked with
  | (w1, .error msg) => (w1, .error msg)
  | (w1, .panic) => (w1, .panic)
  | (w1, .ok _) =>
    match w1.osArgs[0]? with
    | none => (w1, .panic)
    | some self =>
      let w2 := w1.emit (.copyFile self clientPath)
      if !w2.sysOk .copyBinary then (w2, .error "failed to copy hishtory binary to $PATH")
      else
        let w3 := { w2 with binaries := clientPath :: w2.binaries }
        if !w3.sysOk .chmodBinary then (w3, .error "failed to set permissions on hishtory binary")
        else (w3, .ok clientPath)

/-- The common body of `configureBashrc` and `configureZshrc` on the
contents `rc` of the startup file: write the sourced script, return when the
startup file already has the marker (`isBashConfigured`,
`isZshConfigured`), append to it otherwise. The result holds the new
contents of the startup file. -/
def configureRc (w : World) (homedir script : String) (rc : Option String) :
    Res (Option String) :=
  let configPath := pathJoin [homedir, HISHTORY_PATH, script]
  if !w.sysOk .writeShellConfig then .error "failed to write config file"
  else
    let isConfigured : Res Bool :=
      match rc with
      | none => .ok false
      | some text =>
        if !w.sysOk .readRc then .error "failed to read rc file"
        else .ok (contains text "# Hishtory Config:")
    match isConfigured with
    | .error _ => .error "failed to check rc file"
    | .panic => .panic
    | .ok true => .ok rc
    | .ok false =>
      if !w.sysOk .appendRc then .error "failed to append to rc file"
      else
        .ok (some (rc.getD "" ++ "\n# Hishtory Config:\nexport PATH=\"$PATH:" ++
          pathJoin [homedir, HISHTORY_PATH] ++ "\"\nsource " ++ configPath ++ "\n"))

/-- Source function `configureBashrc`. -/
def configureBashrc (w : World) (homedir : String) : World × Res Unit :=
  match configureRc w homedir "config.sh" w.bashrc with
  | .error msg => (w, .error msg)
  | .panic => (w, .panic)
  | .ok rc => ({ w with bashrc := rc }, .ok ())

/-- Source function `configureZshrc`. -/
def configureZshrc (w : World) (homedir : String) : World × Res Unit :=
  match configureRc w homedir "config.zsh" w.zshrc with
  | .error msg => (w, .error msg)
  | .panic => (w, .panic)
  | .ok rc => ({ w with zshrc := rc }, .ok ())

/-- Source function `Install`. -/
def Install (x : Ext) (w : World) : World × Res Unit :=
  match w.homedir with
  | none => (w, .error "failed to get user's home directory")
  | some homedir =>
  if !w.sysOk .mkdirHishtoryDir then (w, .error "failed to create folder for hishtory binary")
  else
  match installBinary w homedir with
  | (w1, .error msg) => (w1, .error msg)
  | (w1, .panic) => (w1, .panic)
  | (w1, .ok _) =>
  match configureBashrc w1 homedir with
  | (w2, .error msg) => (w2, .error msg)
  | (w2, .panic) => (w2, .panic)
  | (w2, .ok _) =>
  match configureZshrc w2 homedir with
  | (w3, .error msg) => (w3, .error msg)
  | (w3, .panic) => (w3, .panic)
  | (w3, .ok _) =>
  match GetConfig x w3 with
  | .ok _ => (w3, .ok ())
  | _ => Setup x w3 w3.osArgs

/-! ## Updater -/

/-- Source function `downloadFile`; the two file names that
`downloadFiles` passes are the two temporary files of the world. -/
def downloadFile (w : World) (filename url : String) : World × Res Unit :=
  let w1 := w.emit (.httpGet url)
  match w.httpGet url with
  | .transportError => (w1, .error "failed to download file")
  | .response status body =>
    if status ≠ 200 then (w1, .error "failed to download file due to resp_code")
    else
      let w2 := w1.emit (.createFile filename)
      if !w2.sysOk .createTmp then (w2, .error "failed to save file")
      else
        let store (w : World) (contents : String) : World :=
          if filename = "/tmp/hishtory-client" then { w with tmpClient := some contents }
          else { w with tmpAttestation := some contents }
        match body with
        | none => (store w2 "", .error "failed to copy the response body")
        | some contents =>
          if !w2.sysOk .copyBody then (store w2 "", .error "failed to copy the response body")
          else (store w2 contents, .ok ())

/-- Source function `downloadFiles`. -/
def downloadFiles (w : World) (updateInfo : UpdateInfo) : World × Res Unit :=
  let urls : Option (String × String) :=
    if w.GOOS = "linux" && w.GOARCH = "amd64" then
      some (updateInfo.LinuxAmd64Url, updateInfo.LinuxAmd64AttestationUrl)
    else if w.GOOS = "darwin" && w.GOARCH = "amd64" then
      some (updateInfo.DarwinAmd64Url, updateInfo.DarwinAmd64AttestationUrl)
    else if w.GOOS = "darwin" && w.GOARCH = "arm64" then
      some (updateInfo.DarwinArm64Url, updateInfo.DarwinArm64AttestationUrl)
    else none
  match urls with
  | none => (w, .error "no update info found for GOOS, GOARCH")
  | some (clientUrl, clientProvenanceUrl) =>
    match downloadFile w "/tmp/hishtory-client" clientUrl with
    | (w1, .error msg) => (w1, .error msg)
    | (w1, .panic) => (w1, .panic)
    | (w1, .ok _) => downloadFile w1 "/tmp/hishtory-client.intoto.jsonl" clientProvenanceUrl

/-- Source function `Update`. What the new binary does when it is run
with `install` is its own program; of that step the world keeps the record
in the trace. -/
def Update (x : Ext) (w : World) : World × Res Unit :=
  match ApiGet w "/api/v1/download" with
  | (w1, .error _) => (w1, .error "failed to download update info")
  | (w1, .panic) => (w1, .panic)
  | (w1, .ok respBody) =>
  match x.unmarshalUpdateInfo respBody with
  | none => (w1, .error "failed to parse update info")
  | some downloadData =>
  if downloadData.Version = "v0." ++ w1.Version then
    (w1.emit (.print ("Latest version (v0." ++ w1.Version ++ ") is already installed")), .ok ())
  else
  match downloadFiles w1 downloadData with
  | (w2, .error msg) => (w2, .error msg)
  | (w2, .panic) => (w2, .panic)
  | (w2, .ok _) =>
  let subject := downloadData.Version ++ "-" ++ w2.GOOS ++ "-" ++ w2.GOARCH
  let verified := x.verifyBinary w2.tmpClient w2.tmpAttestation subject
  let w3 := w2.emit (.verifyBinary subject verified)
  if !verified then
    (w3, .error "failed to verify SLSA provenance of the updated binary, aborting update")
  else
  let unlinked : World × Res Unit :=
    if w3.GOOS = "linux" then
      match w3.homedir with
      | none => (w3, .error "failed to get user's home directory")
      | some homedir =>
        let installed := pathJoin [homedir, HISHTORY_PATH, "hishtory"]
        let w4 := w3.emit (.unlink installed)
        if !w4.sysOk .unlinkBinary then (w4, .error "failed to unlink for update")
        else ({ w4 with binaries := w4.binaries.erase installed }, .ok ())
    else (w3, .ok ())
  match unlinked with
  | (w4, .error msg) => (w4, .error msg)
  | (w4, .panic) => (w4, .panic)
  | (w4, .ok _) =>
  let w5 := w4.emit (.run "chmod" ["+x", "/tmp/hishtory-client"])
  if !w5.sysOk .chmodTmp then (w5, .error "failed to chmod +x the update")
  else
  let w6 := w5.emit (.run "/tmp/hishtory-client" ["install"])
  if !w6.sysOk .runInstall then (w6, .error "failed to install update")
  else
    (w6.emit (.print ("Successfully updated hishtory from v0." ++ w6.Version ++ " to " ++
      downloadData.Version)), .ok ())

/-! ## Properties and example inputs -/

/-- Two rows are equal in all seven fields. -/
def sameSevenFields (r s : HistoryEntry) : Prop :=
  r.LocalUsername = s.LocalUsername ∧ r.Hostname = s.Hostname ∧
  r.CurrentWorkingDirectory = s.CurrentWorkingDirectory ∧ r.Command = s.Command ∧
  r.ExitCode = s.ExitCode ∧ r.StartTime = s.StartTime ∧ r.EndTime = s.EndTime

instance (r s : HistoryEntry) : Decidable (sameSevenFields r s) := by
  unfold sameSevenFields; infer_instance

/-- No two rows of the cache are equal in all seven fields. -/
def NoDuplicateRows (db : List HistoryEntry) : Prop :=
  db.Pairwise (fun r s => ¬ sameSevenFields r s)

instance (db : List HistoryEntry) : Decidable (NoDuplicateRows db) := by
  unfold NoDuplicateRows; infer_instance

/-- The entry `e'` is `e` with exactly one of the seven fields changed. -/
def differInOneField (e e' : HistoryEntry) : Prop :=
  (∃ v, v ≠ e.LocalUsername ∧ e' = { e with LocalUsername := v }) ∨
  (∃ v, v ≠ e.Hostname ∧ e' = { e with Hostname := v }) ∨
  (∃ v, v ≠ e.CurrentWorkingDirectory ∧ e' = { e with CurrentWorkingDirectory := v }) ∨
  (∃ v, v ≠ e.Command ∧ e' = { e with Command := v }) ∨
  (∃ v, v ≠ e.ExitCode ∧ e' = { e with ExitCode := v }) ∨
  (∃ v, v ≠ e.StartTime ∧ e' = { e with StartTime := v }) ∨
  (∃ v, v ≠ e.EndTime ∧ e' = { e with EndTime := v })

/-- An example entry. -/
def entryLs : HistoryEntry :=
  { LocalUsername := "bob", Hostname := "laptop", Command := "ls -la",
    CurrentWorkingDirectory := "~/proj", ExitCode := 0, StartTime := 100, EndTime := 101 }

/-- The example entry, run again with another exit code. -/
def entryLsFailed : HistoryEntry :=
  { entryLs with ExitCode := 2 }

/-- The body of a response with status 200 whose body can be read. -/
def okBody : HttpResult → Option String
  | .response 200 (some body) => some body
  | _ => none

/-- The environment lets `Setup` reach its loop over the entries `encs`
under the secret `secret`: the home directory is known, the config file
can be written, the log and the database open, and the server answers the
registration and then the bootstrap request, for each device id of `ids`,
with status 200, the bootstrap body decoding to `encs`. -/
structure BootstrapReady (x : Ext) (w : World) (secret : String)
    (encs : List EncHistoryEntry) (ids : List String) : Prop where
  homedir : w.homedir.isSome = true
  mkdir : w.sysOk .mkdirHishtoryDir = true
  writeConfig : w.sysOk .writeConfig = true
  openLog : w.sysOk .openLog = true
  logger : w.getLoggerOnce = true → w.hishtoryLogger = true
  openDb : w.sysOk .openDb = true
  pingDb : w.sysOk .pingDb = true
  register : ∀ deviceId ∈ ids,
    (okBody (w.httpGet (getServerHostname w ++ ("/api/v1/eregister?user_id=" ++
      x.UserId secret ++ "&device_id=" ++ deviceId)))).isSome = true
  bootstrap : ∀ deviceId ∈ ids,
    (okBody (w.httpGet (getServerHostname w ++ ("/api/v1/ebootstrap?user_id=" ++
      x.UserId secret ++ "&device_id=" ++ deviceId)))).bind x.unmarshalEntries = some encs

/-- An example codec and crypto capability: a config file holds the
last-line marker of a device of user `secret`, a bootstrap body holds one
encrypted entry per character, each with a nonce of its own, and `?` is an
entry that does not decrypt. -/
def demoExt : Ext where
  marshalConfig c := c.LastSavedHistoryLine
  unmarshalConfig s := if s = "\x7b" then none else some ⟨"secret", true, "device", s⟩
  unmarshalEntries body :=
    some ((List.range body.length).zipWith
      (fun i c => ⟨String.singleton c, ⟨List.replicate i 'n'⟩, "", ""⟩) body.data)
  unmarshalUpdateInfo body :=
    if body = "" then none
    else some ⟨body, "https://dl/linux", "https://dl/linux.att", "https://dl/mac",
      "https://dl/mac.att", "https://dl/arm", "https://dl/arm.att"⟩
  UserId secret := "id-" ++ secret
  DecryptHistoryEntry secret enc :=
    if secret = "secret" && enc.EncryptedData != "?" then
      some { entryLs with Command := enc.EncryptedData }
    else none
  verifyBinary binary attestation _ := binary == some "signed" && attestation.isSome

/-- An example server: two entries to bootstrap from, and an update. -/
def demoServer (url : String) : HttpResult :=
  if hasPrefix url "https://api.hishtory.dev/api/v1/ebootstrap" then .response 200 (some "ab")
  else if hasPrefix url "https://api.hishtory.dev/api/v1/eregister" then .response 200 (some "")
  else if url = "https://api.hishtory.dev/api/v1/download" then .response 200 (some "v0.124")
  else if url = "https://dl/linux" then .response 200 (some "signed")
  else if url = "https://dl/linux.att" then .response 200 (some "attestation")
  else .transportError

/-- An example machine: a Linux host on which every system call succeeds,
with an installed binary, no config file and an empty cache. -/
def demoWorld : World where
  GOOS := "linux"
  GOARCH := "amd64"
  Version := "123"
  osArgs := ["hishtory", "install", "secret"]
  homedir := some "/home/bob"
  getwd := some "/home/bob/proj"
  currentUser := some "bob"
  osHostname := some "laptop"
  now := 1000
  HISHTORY_SERVER := ""
  HISHTORY_TEST := ""
  uuids := ["u1", "u2", "u3", "u4"]
  sysOk := fun _ => true
  configFile := none
  bashrc := none
  zshrc := none
  lookPath := none
  binaries := ["/home/bob/.hishtory/hishtory"]
  tmpClient := none
  tmpAttestation := none
  history_entries := []
  httpGet := demoServer
  httpPost := fun _ _ _ => .transportError
  getLoggerOnce := false
  hishtoryLogger := false
  trace := []

/-- The example machine with a cache that holds a row, and a server whose
bootstrap response is `body`. -/
def demoWorldServing (body : String) : World :=
  { demoWorld with
    history_entries := [entryLs]
    httpGet := fun url =>
      if hasPrefix url "https://api.hishtory.dev/api/v1/ebootstrap" then .response 200 (some body)
      else demoServer url }

/-- The entry that the example encrypted entry `c` decrypts to. -/
def demoEntry (c : String) : HistoryEntry :=
  { entryLs with Command := c }

/-- The effects of a run that took the world from `before` to `after`. -/
def effectsOf (before after : World) : List Effect :=
  after.trace.drop before.trace.length

/-- Effects that neither check the downloaded binary nor touch an installed
one: requests, log and terminal lines, and the creation of one of the two
temporary files of the download, and of no other file. -/
def Effect.preliminary : Effect → Bool
  | .httpGet _ => true
  | .logPrintf _ => true
  | .print _ => true
  | .createFile path =>
    path == "/tmp/hishtory-client" || path == "/tmp/hishtory-client.intoto.jsonl"
  | _ => false

/-- Effects of the last phase of `Update`: unlinking, running a command,
reporting. -/
def Effect.installStep : Effect → Bool
  | .unlink _ => true
  | .run _ _ => true
  | .print _ => true
  | _ => false

/-- From `w` to `w'` the trace grew by effects that all satisfy `P`. -/
def Extends (P : Effect → Bool) (w w' : World) : Prop :=
  ∃ new : List Effect, w'.trace = w.trace ++ new ∧ ∀ e ∈ new, P e = true

/-- From `w` to `w'` only preliminary effects happened and the installed
binaries are the same. -/
def Preliminary (w w' : World) : Prop :=
  Extends Effect.preliminary w w' ∧ w'.binaries = w.binaries

/-- The example machine when the server serves a binary that the
provenance check rejects. -/
def demoWorldTampered : World :=
  { demoWorld with
    httpGet := fun url =>
      if url = "https://dl/linux" then .response 200 (some "tampered") else demoServer url }

/-- The example machine running the version string that the server
reports as latest. -/
def demoWorldSameVersion : World :=
  { demoWorld with Version := "v0.124" }

/-- The example machine running the release whose number the server
reports as latest. -/
def demoWorldUpToDate : World :=
  { demoWorld with Version := "124" }

/-- The example machine with hishtory already installed: a cache that
holds a row, and a config file that exists but does not parse. -/
def demoWorldCorruptConfig : World :=
  { demoWorld with
    configFile := some "\x7b"
    history_entries := [entryLs] }

/-- The worlds `w` and `w'` have the same config file and cache rows, and
the same answers to what `GetConfig` asks. -/
def SameStore (w w' : World) : Prop :=
  w'.configFile = w.configFile ∧ w'.history_entries = w.history_entries ∧
  w'.homedir = w.homedir ∧ w'.sysOk = w.sysOk

/-- The example machine with the working directory in a sibling of the
home directory whose name begins with the home path. -/
def demoWorldSibling : World :=
  { demoWorld with getwd := some "/home/bobby" }

/-- The raw command line of a capture: for zsh it is `args[4]`, for bash
it is the command part of the history line `args[4]`. -/
def rawCommandLine (shell a4 : String) : Option String :=
  if shell = "bash" then getLastCommand a4 else some a4

/-- The example machine after setup: its config file holds the marker
`old line`. -/
def demoWorldConfigured : World :=
  { demoWorld with configFile := some "old line" }

/-- The arguments of a bash capture of the history line `line`, with exit
code 0 and start time 1000. -/
def demoBashArgs (line : String) : List String :=
  ["hishtory", "saveHistoryEntry", "bash", "0", line, "1000"]

/-- The log sink can be used: it is open already, or this is its first use
and the home directory lookup and the opening of `hishtory.log` succeed. -/
def logSinkAvailable (w : World) : Bool :=
  if w.getLoggerOnce then w.hishtoryLogger else w.homedir.isSome && w.sysOk .openLog

/-- The example machine with a server that also answers a POST. -/
def demoWorldPosting : World :=
  { demoWorld with httpPost := fun _ _ _ => .response 200 (some "posted") }

/-- The example machine with a server that also answers a POST, when
`hishtory.log` cannot be opened. -/
def demoWorldNoLog : World :=
  { demoWorldPosting with sysOk := fun op => op != .openLog }

/-- The example machine with a server that also answers a POST, when the
home directory lookup fails. -/
def demoWorldNoHome : World :=
  { demoWorldPosting with homedir := none }

/-- The number of space characters of the whitespace-trimmed history
line. -/
def trimmedSpaces (history : String) : Nat :=
  (trimSpace history).data.count ' '

/-! # Theorems -/

/-! ## The local cache -/

theorem rowMatches_iff (entry row : HistoryEntry) : rowMatches entry row = true ↔ row = entry := by
  cases entry; cases row
  simp [rowMatches]
  tauto

theorem sameSevenFields_iff (r s : HistoryEntry) : sameSevenFields r s ↔ r = s := by
  cases r; cases s
  simp [sameSevenFields]
  tauto

theorem noDuplicateRows_iff (db : List HistoryEntry) : NoDuplicateRows db ↔ db.Nodup := by
  unfold NoDuplicateRows List.Nodup
  simp only [sameSevenFields_iff]

theorem addToDbIfNew_eq (db : List HistoryEntry) (entry : HistoryEntry) :
    AddToDbIfNew db entry = if entry ∈ db then db else db ++ [entry] := by
  unfold AddToDbIfNew
  by_cases h : entry ∈ db
  · have hne : db.filter (rowMatches entry) ≠ [] := by
      intro hnil
      have : entry ∈ db.filter (rowMatches entry) :=
        List.mem_filter.mpr ⟨h, (rowMatches_iff entry entry).mpr rfl⟩
      rw [hnil] at this
      exact absurd this (List.not_mem_nil _)
    cases hf : db.filter (rowMatches entry) with
    | nil => exact absurd hf hne
    | cons a l => simp [h]
  · have hnil : db.filter (rowMatches entry) = [] := by
      apply List.filter_eq_nil_iff.mpr
      intro a ha hm
      exact h ((rowMatches_iff entry a).mp hm ▸ ha)
    simp [hnil, h]

theorem differInOneField_ne (e e' : HistoryEntry) (h : differInOneField e e') : e' ≠ e := by
  cases e
  rcases h with ⟨v, hv, rfl⟩ | ⟨v, hv, rfl⟩ | ⟨v, hv, rfl⟩ | ⟨v, hv, rfl⟩ | ⟨v, hv, rfl⟩ |
    ⟨v, hv, rfl⟩ | ⟨v, hv, rfl⟩ <;> simpa using hv

/-- C1. Inserting an entry twice into the empty cache leaves exactly one
row; inserting it and then an entry that differs from it in any single one
of the seven fields leaves exactly two rows. -/
theorem addToDbIfNew_idempotent (e e' : HistoryEntry) (h : differInOneField e e') :
    (AddToDbIfNew (AddToDbIfNew [] e) e).length = 1 ∧
    (AddToDbIfNew (AddToDbIfNew [] e) e').length = 2 := by
  have hne := differInOneField_ne e e' h
  simp [addToDbIfNew_eq, hne]

theorem addToDbIfNew_idempotent_witness :
    differInOneField entryLs entryLsFailed ∧
    (AddToDbIfNew (AddToDbIfNew [] entryLs) entryLs).length = 1 ∧
    (AddToDbIfNew (AddToDbIfNew [] entryLs) entryLsFailed).length = 2 :=
  have h : differInOneField entryLs entryLsFailed :=
    Or.inr (Or.inr (Or.inr (Or.inr (Or.inl ⟨2, by decide, rfl⟩))))
  ⟨h, addToDbIfNew_idempotent entryLs entryLsFailed h⟩

/-! ## Setup -/

theorem emit_history (w : World) (e : Effect) : (w.emit e).history_entries = w.history_entries := rfl

theorem getLogger_history (w : World) : (getLogger w).1.history_entries = w.history_entries := by
  unfold getLogger
  split
  · rfl
  · dsimp only
    split
    · rfl
    · split <;> rfl

theorem logPrintf_history (w : World) (line : String) :
    (logPrintf w line).1.history_entries = w.history_entries := by
  have h := getLogger_history w
  unfold logPrintf
  split <;> simp_all [emit_history]

theorem apiGet_history (w : World) (path : String) :
    (ApiGet w path).1.history_entries = w.history_entries := by
  unfold ApiGet
  dsimp only
  split
  · rfl
  · split
    · rfl
    · split
      · rfl
      · have h := logPrintf_history (w.emit (.httpGet (getServerHostname w ++ path)))
          ("ApiGet(" ++ path ++ ")")
        split <;> simp_all [emit_history]

theorem bootstrapEntries_noDuplicateRows (x : Ext) (secret : String) (encs : List EncHistoryEntry) :
    ∀ w : World, NoDuplicateRows w.history_entries →
      NoDuplicateRows (bootstrapEntries x secret w encs).1.history_entries := by
  induction encs with
  | nil => intro w h; simpa [bootstrapEntries] using h
  | cons enc rest ih =>
    intro w h
    unfold bootstrapEntries
    split
    · exact h
    · apply ih
      dsimp only
      rw [noDuplicateRows_iff] at h ⊢
      rw [addToDbIfNew_eq]
      split
      · exact h
      · rename_i hn
        exact List.Nodup.append h (List.nodup_singleton _) (by simpa using hn)

theorem setup_ok_shape (x : Ext) (w : World) (args : List String) :
    (Setup x w args).2 = .ok () →
    ∃ secret w8 encs, w8.history_entries = [] ∧
      Setup x w args = bootstrapEntries x secret w8 encs := by
  unfold Setup
  rcases newRandom w with ⟨w1, _ | fresh⟩
  · intro h; cases h
  dsimp only
  rcases newRandom (w1.emit _) with ⟨w3, _ | dev⟩
  · intro h; cases h
  dsimp only
  rcases SetConfig x w3 _ with ⟨w4, _ | _ | _⟩
  · dsimp only
    rcases ho : OpenLocalSqliteDb w4 with ⟨w5, _ | _ | _⟩
    · dsimp only
      rcases hg1 : ApiGet _ _ with ⟨w7, _ | _ | _⟩
      · dsimp only
        rcases hg2 : ApiGet w7 _ with ⟨w8, body | _ | _⟩
        · dsimp only
          rcases x.unmarshalEntries body with _ | encs
          · intro h; cases h
          · intro _
            refine ⟨_, w8, encs, ?_, rfl⟩
            have h1 := apiGet_history _ _ ▸ congrArg (fun p : World × Res String => p.1.history_entries) hg1
            have h2 := apiGet_history _ _ ▸ congrArg (fun p : World × Res String => p.1.history_entries) hg2
            simp only at h1 h2
            rw [← h2, ← h1]
        · intro h; cases h
        · intro h; cases h
      · intro h; cases h
      · intro h; cases h
    · intro h; cases h
    · intro h; cases h
  · intro h; cases h
  · intro h; cases h

/-- C2. The cache having no two rows equal in all seven fields is an
invariant: it holds of the empty cache, `AddToDbIfNew` preserves it, and it
holds of the cache that a successful `Setup` leaves. -/
theorem noDuplicateRows_invariant (db : List HistoryEntry) (e : HistoryEntry)
    (hdb : NoDuplicateRows db) (x : Ext) (w : World) (args : List String)
    (hs : (Setup x w args).2 = .ok ()) :
    NoDuplicateRows [] ∧ NoDuplicateRows (AddToDbIfNew db e) ∧
    NoDuplicateRows (Setup x w args).1.history_entries := by
  refine ⟨List.Pairwise.nil, ?_, ?_⟩
  · rw [noDuplicateRows_iff] at hdb ⊢
    rw [addToDbIfNew_eq]
    split
    · exact hdb
    · rename_i hn
      exact List.Nodup.append hdb (List.nodup_singleton _) (by simpa using hn)
  · obtain ⟨secret, w8, encs, h8, heq⟩ := setup_ok_shape x w args hs
    rw [heq]
    apply bootstrapEntries_noDuplicateRows
    rw [h8]
    exact List.Pairwise.nil

theorem noDuplicateRows_invariant_witness :
    NoDuplicateRows [entryLs] ∧
    (Setup demoExt demoWorld ["hishtory", "install", "secret"]).2 = .ok () ∧
    NoDuplicateRows [] ∧ NoDuplicateRows (AddToDbIfNew [entryLs] entryLsFailed) ∧
    NoDuplicateRows (Setup demoExt demoWorld ["hishtory", "install", "secret"]).1.history_entries :=
  ⟨by decide, by rfl,
    noDuplicateRows_invariant [entryLs] entryLsFailed (by decide) demoExt demoWorld
      ["hishtory", "install", "secret"] (by rfl)⟩

theorem okBody_eq_some {r : HttpResult} {body : String} (h : okBody r = some body) :
    r = .response 200 (some body) := by
  unfold okBody at h
  split at h
  · simp at h; rw [h]
  · cases h

theorem okBody_isSome {r : HttpResult} (h : (okBody r).isSome = true) :
    ∃ body, r = .response 200 (some body) := by
  obtain ⟨body, hb⟩ := Option.isSome_iff_exists.mp h
  exact ⟨body, okBody_eq_some hb⟩

theorem okBody_bind {r : HttpResult} {α : Type} {f : String → Option α} {a : α}
    (h : (okBody r).bind f = some a) :
    ∃ body, r = .response 200 (some body) ∧ f body = some a := by
  cases hb : okBody r with
  | none => rw [hb] at h; cases h
  | some body => rw [hb] at h; exact ⟨body, okBody_eq_some hb, h⟩

theorem bootstrapReady_of_env {x : Ext} {w w' : World} {secret : String}
    {encs : List EncHistoryEntry} {ids : List String} (h : BootstrapReady x w secret encs ids)
    (h1 : w'.homedir = w.homedir) (h2 : w'.sysOk = w.sysOk) (h3 : w'.httpGet = w.httpGet)
    (h4 : w'.HISHTORY_SERVER = w.HISHTORY_SERVER)
    (h5 : w'.getLoggerOnce = true → w'.hishtoryLogger = true) :
    BootstrapReady x w' secret encs ids := by
  have hs : getServerHostname w' = getServerHostname w := by simp [getServerHostname, h4]
  constructor
  · rw [h1]; exact h.homedir
  · rw [h2]; exact h.mkdir
  · rw [h2]; exact h.writeConfig
  · rw [h2]; exact h.openLog
  · exact h5
  · rw [h2]; exact h.openDb
  · rw [h2]; exact h.pingDb
  · rw [h3, hs]; exact h.register
  · rw [h3, hs]; exact h.bootstrap

theorem apiGet_ready (w : World) (path body : String)
    (hh : w.homedir.isSome = true) (ho : w.sysOk .openLog = true)
    (hl : w.getLoggerOnce = true → w.hishtoryLogger = true)
    (hget : w.httpGet (getServerHostname w ++ path) = .response 200 (some body)) :
    ∃ w', ApiGet w path = (w', .ok body) ∧ w'.homedir = w.homedir ∧ w'.sysOk = w.sysOk ∧
      w'.httpGet = w.httpGet ∧ w'.HISHTORY_SERVER = w.HISHTORY_SERVER ∧ w'.uuids = w.uuids ∧
      w'.history_entries = w.history_entries ∧ w'.getLoggerOnce = true ∧
      w'.hishtoryLogger = true := by
  obtain ⟨home, hhome⟩ := Option.isSome_iff_exists.mp hh
  unfold ApiGet logPrintf getLogger
  by_cases honce : w.getLoggerOnce = true
  · have := hl honce
    simp [hget, World.emit, honce, this]
  · simp [hget, World.emit, honce, hhome, ho]

theorem bootstrapReady_emit {x : Ext} {w : World} {secret : String}
    {encs : List EncHistoryEntry} {ids : List String} (h : BootstrapReady x w secret encs ids) (e : Effect) :
    BootstrapReady x (w.emit e) secret encs ids :=
  bootstrapReady_of_env h rfl rfl rfl rfl h.logger

theorem newRandom_ready {x : Ext} {w : World} {secret : String} {encs : List EncHistoryEntry} {ids : List String}
    (h : BootstrapReady x w secret encs ids) (u : String) (rest : List String)
    (hu : w.uuids = u :: rest) :
    ∃ w', newRandom w = (w', some u) ∧ BootstrapReady x w' secret encs ids ∧ w'.uuids = rest := by
  refine ⟨{ w with uuids := rest }, by simp [newRandom, hu], ?_, rfl⟩
  exact bootstrapReady_of_env h rfl rfl rfl rfl h.logger

theorem setConfig_ready {x : Ext} {w : World} {secret : String} {encs : List EncHistoryEntry} {ids : List String}
    (h : BootstrapReady x w secret encs ids) (config : ClientConfig) :
    ∃ w', SetConfig x w config = (w', .ok ()) ∧ BootstrapReady x w' secret encs ids ∧
      w'.uuids = w.uuids := by
  obtain ⟨home, hhome⟩ := Option.isSome_iff_exists.mp h.homedir
  refine ⟨({ w with configFile := some (x.marshalConfig config) }).emit
    (.writeConfig (x.marshalConfig config)), ?_, ?_, rfl⟩
  · simp [SetConfig, hhome, h.mkdir, h.writeConfig]
  · exact bootstrapReady_of_env h rfl rfl rfl rfl h.logger

theorem openLocalSqliteDb_ready {x : Ext} {w : World} {secret : String}
    {encs : List EncHistoryEntry} {ids : List String} (h : BootstrapReady x w secret encs ids) :
    ∃ w', OpenLocalSqliteDb w = (w', .ok ()) ∧ BootstrapReady x w' secret encs ids ∧
      w'.uuids = w.uuids := by
  obtain ⟨home, hhome⟩ := Option.isSome_iff_exists.mp h.homedir
  by_cases honce : w.getLoggerOnce = true
  · refine ⟨w, ?_, h, rfl⟩
    simp [OpenLocalSqliteDb, getLogger, hhome, h.mkdir, honce, h.openDb, h.pingDb]
  · refine ⟨{ w with getLoggerOnce := true, hishtoryLogger := true }, ?_, ?_, rfl⟩
    · simp [OpenLocalSqliteDb, getLogger, hhome, h.mkdir, honce, h.openDb, h.pingDb, h.openLog]
    · exact bootstrapReady_of_env h rfl rfl rfl rfl (fun _ => rfl)

theorem apiGet_bootstrapReady {x : Ext} {w : World} {secret : String}
    {encs : List EncHistoryEntry} {ids : List String} (h : BootstrapReady x w secret encs ids) (path body : String)
    (hget : w.httpGet (getServerHostname w ++ path) = .response 200 (some body)) :
    ∃ w', ApiGet w path = (w', .ok body) ∧ BootstrapReady x w' secret encs ids ∧
      w'.uuids = w.uuids ∧ w'.history_entries = w.history_entries := by
  obtain ⟨w', he, h1, h2, h3, h4, h5, h6, h7, h8⟩ :=
    apiGet_ready w path body h.homedir h.openLog h.logger hget
  exact ⟨w', he, bootstrapReady_of_env h h1 h2 h3 h4 (fun _ => h8), h5, h6⟩

theorem setup_reaches (x : Ext) (w : World) (args : List String) (secret : String)
    (encs : List EncHistoryEntry) (ids : List String) (u1 u2 : String) (rest : List String)
    (hu : w.uuids = u1 :: u2 :: rest) (hsec : userSecretOf args u1 = secret) (hid : u2 ∈ ids)
    (hr : BootstrapReady x w secret encs ids) :
    ∃ w8, Setup x w args = bootstrapEntries x secret w8 encs ∧ w8.history_entries = [] ∧
      w8.uuids = rest ∧ BootstrapReady x w8 secret encs ids := by
  obtain ⟨w1, e1, r1, hu1⟩ := newRandom_ready hr u1 (u2 :: rest) hu
  obtain ⟨w3, e3, r3, hu3⟩ := newRandom_ready
    (bootstrapReady_emit r1 (.print ("Setting secret hishtory key to " ++ secret))) u2 rest hu1
  obtain ⟨w4, e4, r4, hu4⟩ := setConfig_ready r3
    { UserSecret := secret, IsEnabled := true, DeviceId := u2, LastSavedHistoryLine := "" }
  obtain ⟨w5, e5, r5, hu5⟩ := openLocalSqliteDb_ready r4
  have r6 : BootstrapReady x { w5 with history_entries := [] } secret encs ids :=
    bootstrapReady_of_env r5 rfl rfl rfl rfl r5.logger
  obtain ⟨b1, hb1⟩ := okBody_isSome (r6.register u2 hid)
  obtain ⟨w7, e7, r7, hu7, hh7⟩ := apiGet_bootstrapReady r6 _ b1 hb1
  obtain ⟨b2, hb2, hdec⟩ := okBody_bind (r7.bootstrap u2 hid)
  obtain ⟨w8, e8, r8, hu8, hh8⟩ := apiGet_bootstrapReady r7 _ b2 hb2
  refine ⟨w8, ?_, ?_, ?_, r8⟩
  · unfold Setup
    simp only [e1, hsec, e3, e4, e5, e7, e8, hdec]
  · rw [hh8, hh7]
  · rw [hu8, hu7]
    show w5.uuids = rest
    rw [hu5, hu4, hu3]

theorem bootstrapEntries_all (x : Ext) (secret : String) (encs : List EncHistoryEntry) :
    ∀ (entries : List HistoryEntry) (w : World),
      encs.map (x.DecryptHistoryEntry secret) = entries.map some →
      bootstrapEntries x secret w encs =
        ({ w with history_entries := entries.foldl AddToDbIfNew w.history_entries }, .ok ()) := by
  induction encs with
  | nil =>
    intro entries w h
    cases entries with
    | nil => rfl
    | cons e es => simp at h
  | cons enc rest ih =>
    intro entries w h
    cases entries with
    | nil => simp at h
    | cons e es =>
      simp only [List.map_cons, List.cons.injEq] at h
      unfold bootstrapEntries
      rw [h.1]
      dsimp only
      rw [ih es _ h.2]
      rfl

theorem bootstrapEntries_prefix (x : Ext) (secret : String) (bad : EncHistoryEntry)
    (post : List EncHistoryEntry) (hbad : x.DecryptHistoryEntry secret bad = none)
    (pre : List EncHistoryEntry) :
    ∀ (decs : List HistoryEntry) (w : World),
      pre.map (x.DecryptHistoryEntry secret) = decs.map some →
      bootstrapEntries x secret w (pre ++ bad :: post) =
        ({ w with history_entries := decs.foldl AddToDbIfNew w.history_entries },
          .error "failed to decrypt history entry from server") := by
  induction pre with
  | nil =>
    intro decs w h
    cases decs with
    | nil => simp [bootstrapEntries, hbad]
    | cons e es => simp at h
  | cons enc rest ih =>
    intro decs w h
    cases decs with
    | nil => simp at h
    | cons e es =>
      simp only [List.map_cons, List.cons.injEq] at h
      rw [List.cons_append]
      unfold bootstrapEntries
      rw [h.1]
      dsimp only
      rw [ih es _ h.2]
      rfl

theorem foldl_addToDbIfNew (entries : List HistoryEntry) :
    ∀ db : List HistoryEntry, db.Nodup →
      (entries.foldl AddToDbIfNew db).Nodup ∧
      ∀ e, e ∈ entries.foldl AddToDbIfNew db ↔ e ∈ db ∨ e ∈ entries := by
  induction entries with
  | nil => intro db h; simp [h]
  | cons a rest ih =>
    intro db h
    have hstep : (AddToDbIfNew db a).Nodup ∧ ∀ e, e ∈ AddToDbIfNew db a ↔ e ∈ db ∨ e = a := by
      rw [addToDbIfNew_eq]
      split
      · rename_i hm
        refine ⟨h, fun e => ⟨Or.inl, ?_⟩⟩
        rintro (h1 | rfl)
        · exact h1
        · exact hm
      · rename_i hn
        exact ⟨List.Nodup.append h (List.nodup_singleton _) (by simpa using hn), by simp⟩
    obtain ⟨h1, h2⟩ := ih _ hstep.1
    refine ⟨h1, fun e => ?_⟩
    rw [List.foldl_cons, h2, hstep.2]
    simp [or_assoc]

theorem foldl_addToDbIfNew_length (entries : List HistoryEntry) :
    (entries.foldl AddToDbIfNew []).length = entries.dedup.length := by
  obtain ⟨h1, h2⟩ := foldl_addToDbIfNew entries [] List.nodup_nil
  rw [← List.toFinset_card_of_nodup h1, ← List.card_toFinset]
  congr 1
  ext e
  simp [h2]

theorem userSecretOf_explicit (args : List String) (secret fresh : String)
    (harg : args[2]? = some secret) (hne : secret ≠ "") : userSecretOf args fresh = secret := by
  have hlen : 2 < args.length := by
    by_contra hc
    rw [List.getElem?_eq_none (by omega)] at harg
    cases harg
  simp [userSecretOf, harg, hne, hlen]

theorem bootstrapReady_history {x : Ext} {w : World} {secret : String}
    {encs : List EncHistoryEntry} {ids : List String} (h : BootstrapReady x w secret encs ids)
    (rows : List HistoryEntry) :
    BootstrapReady x { w with history_entries := rows } secret encs ids :=
  bootstrapReady_of_env h rfl rfl rfl rfl h.logger

/-- C3, amended. Two runs of `Setup` in succession with the same non-empty
secret, against a server that returns the same encrypted entries, all of
which decrypt, both succeed and leave the cache, whatever it held before,
with one row for each distinct decrypted entry: exactly `N` rows when the
`N` entries decrypt to pairwise different entries. -/
theorem setup_twice_rows (x : Ext) (w : World) (args : List String) (secret : String)
    (encs : List EncHistoryEntry) (entries : List HistoryEntry)
    (u1 u2 u3 u4 : String) (rest : List String)
    (hu : w.uuids = u1 :: u2 :: u3 :: u4 :: rest)
    (harg : args[2]? = some secret) (hne : secret ≠ "")
    (hr : BootstrapReady x w secret encs w.uuids)
    (hdec : encs.map (x.DecryptHistoryEntry secret) = entries.map some) :
    (Setup x w args).2 = .ok () ∧
    (Setup x (Setup x w args).1 args).2 = .ok () ∧
    (Setup x (Setup x w args).1 args).1.history_entries = entries.foldl AddToDbIfNew [] ∧
    (Setup x (Setup x w args).1 args).1.history_entries.length = entries.dedup.length ∧
    (entries.Nodup →
      (Setup x (Setup x w args).1 args).1.history_entries.length = encs.length) := by
  obtain ⟨w8, e8, h8, hu8, r8⟩ := setup_reaches x w args secret encs w.uuids u1 u2
    (u3 :: u4 :: rest) hu (userSecretOf_explicit args secret u1 harg hne) (by simp [hu]) hr
  have e1 := bootstrapEntries_all x secret encs entries w8 hdec
  rw [← e8] at e1
  have r1 : BootstrapReady x (Setup x w args).1 secret encs w.uuids := by
    rw [e1]; exact bootstrapReady_history r8 _
  have hu1 : (Setup x w args).1.uuids = u3 :: u4 :: rest := by rw [e1]; exact hu8
  obtain ⟨v8, f8, g8, _, _⟩ := setup_reaches x (Setup x w args).1 args secret encs w.uuids u3 u4
    rest hu1 (userSecretOf_explicit args secret u3 harg hne) (by simp [hu]) r1
  have e2 := bootstrapEntries_all x secret encs entries v8 hdec
  rw [← f8, g8] at e2
  have hrows : (Setup x (Setup x w args).1 args).1.history_entries =
      entries.foldl AddToDbIfNew [] := by rw [e2]
  refine ⟨by rw [e1], by rw [e2], hrows, ?_, ?_⟩
  · rw [hrows, foldl_addToDbIfNew_length]
  · intro hnd
    rw [hrows, foldl_addToDbIfNew_length, hnd.dedup]
    have := congrArg List.length hdec
    simpa using this.symm

theorem setup_twice_rows_witness :
    demoWorld.uuids = ["u1", "u2", "u3", "u4"] ∧
    (["hishtory", "install", "secret"] : List String)[2]? = some "secret" ∧
    (Setup demoExt (Setup demoExt demoWorld ["hishtory", "install", "secret"]).1
      ["hishtory", "install", "secret"]).1.history_entries = [demoEntry "a", demoEntry "b"] :=
  ⟨rfl, rfl,
    (setup_twice_rows demoExt demoWorld ["hishtory", "install", "secret"] "secret"
      [⟨"a", "", "", ""⟩, ⟨"b", "n", "", ""⟩] [demoEntry "a", demoEntry "b"]
      "u1" "u2" "u3" "u4" [] rfl rfl (by decide)
      ⟨rfl, rfl, rfl, rfl, by decide, rfl, rfl, by decide, by decide⟩ rfl).2.2.1⟩

/-- C3 fails as stated: the server returns two encrypted entries, different
in their nonce, that both decrypt to the same entry; two runs of `Setup`
succeed and leave one row, not two. -/
theorem setup_twice_rows_counterexample :
    demoExt.unmarshalEntries "aa" = some [⟨"a", "", "", ""⟩, ⟨"a", "n", "", ""⟩] ∧
    demoExt.DecryptHistoryEntry "secret" ⟨"a", "", "", ""⟩ = some (demoEntry "a") ∧
    demoExt.DecryptHistoryEntry "secret" ⟨"a", "n", "", ""⟩ = some (demoEntry "a") ∧
    (Setup demoExt (demoWorldServing "aa") ["hishtory", "install", "secret"]).2 = .ok () ∧
    (Setup demoExt (Setup demoExt (demoWorldServing "aa") ["hishtory", "install", "secret"]).1
      ["hishtory", "install", "secret"]).2 = .ok () ∧
    (Setup demoExt (Setup demoExt (demoWorldServing "aa") ["hishtory", "install", "secret"]).1
      ["hishtory", "install", "secret"]).1.history_entries.length = 1 := by
  refine ⟨rfl, rfl, rfl, rfl, rfl, rfl⟩

/-- C5, amended. When the bootstrap response holds an entry that does not
decrypt, `Setup` returns an error and inserts no entry at or after the
first such entry; the entries before it, which decrypt, have been inserted
into the cleared cache. -/
theorem setup_decrypt_failure (x : Ext) (w : World) (args : List String) (secret : String)
    (pre post : List EncHistoryEntry) (bad : EncHistoryEntry) (decs : List HistoryEntry)
    (u1 u2 : String) (rest : List String)
    (hu : w.uuids = u1 :: u2 :: rest) (hsec : userSecretOf args u1 = secret)
    (hr : BootstrapReady x w secret (pre ++ bad :: post) w.uuids)
    (hpre : pre.map (x.DecryptHistoryEntry secret) = decs.map some)
    (hbad : x.DecryptHistoryEntry secret bad = none) :
    (Setup x w args).2 = .error "failed to decrypt history entry from server" ∧
    (Setup x w args).1.history_entries = decs.foldl AddToDbIfNew [] := by
  obtain ⟨w8, e8, h8, _, _⟩ := setup_reaches x w args secret (pre ++ bad :: post) w.uuids u1 u2
    rest hu hsec (by simp [hu]) hr
  rw [e8, bootstrapEntries_prefix x secret bad post hbad pre decs w8 hpre, h8]
  exact ⟨rfl, rfl⟩

theorem setup_decrypt_failure_witness :
    demoExt.DecryptHistoryEntry "secret" ⟨"?", "n", "", ""⟩ = none ∧
    (Setup demoExt (demoWorldServing "a?b") ["hishtory", "install", "secret"]).2 =
      .error "failed to decrypt history entry from server" ∧
    (Setup demoExt (demoWorldServing "a?b") ["hishtory", "install", "secret"]).1.history_entries =
      [demoEntry "a"] :=
  ⟨rfl,
    setup_decrypt_failure demoExt (demoWorldServing "a?b") ["hishtory", "install", "secret"]
      "secret" [⟨"a", "", "", ""⟩] [⟨"b", "nn", "", ""⟩] ⟨"?", "n", "", ""⟩ [demoEntry "a"]
      "u1" "u2" ["u3", "u4"] rfl rfl
      ⟨rfl, rfl, rfl, rfl, by decide, rfl, rfl, by decide, by decide⟩ rfl rfl⟩

/-- C5 fails as stated: the second entry of the bootstrap response does
not decrypt; `Setup` returns an error, and the first entry, which
decrypts, is in the cache. -/
theorem setup_decrypt_failure_counterexample :
    demoExt.unmarshalEntries "a?b" =
      some [⟨"a", "", "", ""⟩, ⟨"?", "n", "", ""⟩, ⟨"b", "nn", "", ""⟩] ∧
    demoExt.DecryptHistoryEntry "secret" ⟨"a", "", "", ""⟩ = some (demoEntry "a") ∧
    demoExt.DecryptHistoryEntry "secret" ⟨"?", "n", "", ""⟩ = none ∧
    (Setup demoExt (demoWorldServing "a?b") ["hishtory", "install", "secret"]).2 =
      .error "failed to decrypt history entry from server" ∧
    demoEntry "a" ∈
      (Setup demoExt (demoWorldServing "a?b") ["hishtory", "install", "secret"]).1.history_entries := by
  refine ⟨rfl, rfl, rfl, rfl, ?_⟩
  decide

/-! ## Update -/

theorem extends_refl (P : Effect → Bool) (w : World) : Extends P w w :=
  ⟨[], by simp, by simp⟩

theorem extends_of_eq {P : Effect → Bool} {w w' : World} (ht : w'.trace = w.trace) :
    Extends P w w' :=
  ⟨[], by simp [ht], by simp⟩

theorem extends_trans {P : Effect → Bool} {w w1 w2 : World} (h1 : Extends P w w1)
    (h2 : Extends P w1 w2) : Extends P w w2 := by
  obtain ⟨n1, t1, p1⟩ := h1
  obtain ⟨n2, t2, p2⟩ := h2
  refine ⟨n1 ++ n2, by rw [t2, t1, List.append_assoc], ?_⟩
  intro e he
  rcases List.mem_append.mp he with h | h
  · exact p1 e h
  · exact p2 e h

theorem extends_emit (P : Effect → Bool) (w : World) (e : Effect) (he : P e = true) :
    Extends P w (w.emit e) :=
  ⟨[e], rfl, by simpa using he⟩

theorem preliminary_refl (w : World) : Preliminary w w :=
  ⟨extends_refl _ w, rfl⟩

theorem preliminary_trans {w w1 w2 : World} (h1 : Preliminary w w1) (h2 : Preliminary w1 w2) :
    Preliminary w w2 :=
  ⟨extends_trans h1.1 h2.1, h2.2.trans h1.2⟩

theorem preliminary_emit (w : World) (e : Effect) (he : e.preliminary = true) :
    Preliminary w (w.emit e) :=
  ⟨extends_emit _ w e he, rfl⟩

theorem preliminary_of_eq {w w' : World} (ht : w'.trace = w.trace)
    (hb : w'.binaries = w.binaries) : Preliminary w w' :=
  ⟨extends_of_eq ht, hb⟩

theorem getLogger_preliminary (w : World) : Preliminary w (getLogger w).1 := by
  unfold getLogger
  split
  · exact preliminary_refl w
  · dsimp only
    split
    · exact preliminary_of_eq rfl rfl
    · split <;> exact preliminary_of_eq rfl rfl

theorem logPrintf_preliminary (w : World) (line : String) :
    Preliminary w (logPrintf w line).1 := by
  have h := getLogger_preliminary w
  unfold logPrintf
  split
  · rename_i w1 heq; rw [heq] at h; exact h
  · rename_i w1 msg heq; rw [heq] at h; exact h
  · rename_i w1 heq; rw [heq] at h; exact h
  · rename_i w1 heq; rw [heq] at h
    exact preliminary_trans h (preliminary_emit _ _ rfl)

theorem apiGet_preliminary (w : World) (path : String) : Preliminary w (ApiGet w path).1 := by
  have h0 : Preliminary w (w.emit (.httpGet (getServerHostname w ++ path))) :=
    preliminary_emit _ _ rfl
  have h1 := logPrintf_preliminary (w.emit (.httpGet (getServerHostname w ++ path)))
    ("ApiGet(" ++ path ++ ")")
  unfold ApiGet
  dsimp only
  split
  · exact h0
  · split
    · exact h0
    · split
      · exact h0
      · split
        · rename_i heq; rw [heq] at h1; exact preliminary_trans h0 h1
        · rename_i heq; rw [heq] at h1; exact preliminary_trans h0 h1
        · rename_i heq; rw [heq] at h1; exact preliminary_trans h0 h1

theorem downloadFile_preliminary (w : World) (filename url : String)
    (hf : filename = "/tmp/hishtory-client" ∨ filename = "/tmp/hishtory-client.intoto.jsonl") :
    Preliminary w (downloadFile w filename url).1 := by
  have h0 : Preliminary w (w.emit (.httpGet url)) := preliminary_emit _ _ rfl
  have h1 : Preliminary w ((w.emit (.httpGet url)).emit (.createFile filename)) :=
    preliminary_trans h0 (preliminary_emit _ _ (by rcases hf with rfl | rfl <;> rfl))
  have h2 : ∀ c : String, Preliminary w
      (if filename = "/tmp/hishtory-client" then
        { (w.emit (.httpGet url)).emit (.createFile filename) with tmpClient := some c }
      else { (w.emit (.httpGet url)).emit (.createFile filename) with tmpAttestation := some c }) := by
    intro c
    split
    · exact preliminary_trans h1 (preliminary_of_eq rfl rfl)
    · exact preliminary_trans h1 (preliminary_of_eq rfl rfl)
  unfold downloadFile
  dsimp only
  split
  · exact h0
  · split
    · exact h0
    · split
      · exact h1
      · split
        · exact h2 ""
        · split
          · exact h2 ""
          · exact h2 _

theorem downloadFiles_preliminary (w : World) (updateInfo : UpdateInfo) :
    Preliminary w (downloadFiles w updateInfo).1 := by
  unfold downloadFiles
  dsimp only
  split
  · exact preliminary_refl w
  · rename_i clientUrl clientProvenanceUrl _
    have h1 := downloadFile_preliminary w "/tmp/hishtory-client" clientUrl (Or.inl rfl)
    split
    · rename_i heq; rw [heq] at h1; exact h1
    · rename_i heq; rw [heq] at h1; exact h1
    · rename_i w1 _ heq
      rw [heq] at h1
      exact preliminary_trans h1 (downloadFile_preliminary w1 _ _ (Or.inr rfl))

theorem update_shape (x : Ext) (w : World) :
    (Preliminary w (Update x w).1) ∨
    (∃ w2 s, Preliminary w w2 ∧ (Update x w).1 = w2.emit (.verifyBinary s false) ∧
      ∃ msg, (Update x w).2 = .error msg) ∨
    (∃ w2 s, Preliminary w w2 ∧
      Extends Effect.installStep (w2.emit (.verifyBinary s true)) (Update x w).1) := by
  have ha := apiGet_preliminary w "/api/v1/download"
  unfold Update
  rcases hA : ApiGet w "/api/v1/download" with ⟨w1, body | msg | _⟩ <;> rw [hA] at ha
  · dsimp only
    rcases x.unmarshalUpdateInfo body with _ | info
    · exact Or.inl ha
    · dsimp only
      split
      · exact Or.inl (preliminary_trans ha (preliminary_emit _ _ rfl))
      · have hd := downloadFiles_preliminary w1 info
        rcases hD : downloadFiles w1 info with ⟨w2, _ | msg | _⟩ <;> rw [hD] at hd
        · dsimp only
          have h2 := preliminary_trans ha hd
          generalize x.verifyBinary w2.tmpClient w2.tmpAttestation _ = v
          generalize hs : info.Version ++ "-" ++ w2.GOOS ++ "-" ++ w2.GOARCH = subject
          cases v
          · exact Or.inr (Or.inl ⟨w2, _, h2, rfl, _, rfl⟩)
          · refine Or.inr (Or.inr ⟨w2, subject, h2, ?_⟩)
            simp only [Bool.not_true, Bool.false_eq_true, if_false]
            generalize w2.emit (.verifyBinary subject true) = w3
            generalize hU : (ite (w3.GOOS = "linux") _ _ : World × Res Unit) = unl
            have hu : Extends Effect.installStep w3 unl.1 := by
              rw [← hU]
              split
              · split
                · exact extends_refl _ _
                · split
                  · exact extends_emit _ _ (.unlink _) rfl
                  · exact extends_trans (extends_emit _ _ (.unlink _) rfl) (extends_of_eq rfl)
              · exact extends_refl _ _
            rcases unl with ⟨w4, _ | msg | _⟩
            · dsimp only at hu ⊢
              have h5 : Extends Effect.installStep w3
                  (w4.emit (.run "chmod" ["+x", "/tmp/hishtory-client"])) :=
                extends_trans hu (extends_emit _ _ (.run _ _) rfl)
              split
              · exact h5
              · have h6 := extends_trans h5
                  (extends_emit Effect.installStep _ (.run "/tmp/hishtory-client" ["install"]) rfl)
                split
                · exact h6
                · exact extends_trans h6 (extends_emit _ _ (.print _) rfl)
            · exact hu
            · exact hu
        · exact Or.inl (preliminary_trans ha hd)
        · exact Or.inl (preliminary_trans ha hd)
  · exact Or.inl ha
  · exact Or.inl ha

theorem effectsOf_extends {P : Effect → Bool} {w w' : World} (h : Extends P w w') :
    w'.trace = w.trace ++ effectsOf w w' ∧ ∀ e ∈ effectsOf w w', P e = true := by
  obtain ⟨new, ht, hp⟩ := h
  have : effectsOf w w' = new := by simp [effectsOf, ht]
  rw [this]
  exact ⟨ht, hp⟩

theorem effectsOf_append (w w1 w2 : World) (l1 l2 : List Effect)
    (h1 : w1.trace = w.trace ++ l1) (h2 : w2.trace = w1.trace ++ l2) :
    effectsOf w w2 = l1 ++ l2 := by
  simp [effectsOf, h2, h1]

theorem mem_before_of_split {l1 l2 pre post : List Effect} {v u : Effect}
    (h : l1 ++ v :: l2 = pre ++ u :: post) (hu : u ∉ l1) (hvu : v ≠ u) : v ∈ pre := by
  rcases List.append_eq_append_iff.mp h with ⟨a, ha, hb⟩ | ⟨c, hc, hd⟩
  · cases a with
    | nil => simp at hb; exact absurd hb.1 hvu
    | cons a0 a1 =>
      simp only [List.cons_append, List.cons.injEq] at hb
      rw [ha, hb.1]
      simp
  · cases c with
    | nil => simp at hd; exact absurd hd.1.symm hvu
    | cons c0 c1 =>
      simp only [List.cons_append, List.cons.injEq] at hd
      exact absurd (by rw [hc, hd.1]; simp) hu

/-- C4. A run of `Update` in which `verifyBinary` fails returns an error,
and its effects hold no unlink, no run of a command (so no install step of
the downloaded binary) and no copy onto a binary; the only files it creates
or writes are the two temporary files of the download, so no installed
binary is overwritten, and the installed binaries are as before. In every
run, an unlink happens only after `verifyBinary` has returned success. -/
theorem update_fail_closed (x : Ext) (w : World) (subject : String)
    (hfail : Effect.verifyBinary subject false ∈ effectsOf w (Update x w).1)
    (x' : Ext) (w' : World) (pre post : List Effect) (path : String)
    (hsplit : effectsOf w' (Update x' w').1 = pre ++ Effect.unlink path :: post) :
    ((∃ msg, (Update x w).2 = .error msg) ∧
      (∀ p, Effect.unlink p ∉ effectsOf w (Update x w).1) ∧
      (∀ c a, Effect.run c a ∉ effectsOf w (Update x w).1) ∧
      (∀ src dst, Effect.copyFile src dst ∉ effectsOf w (Update x w).1) ∧
      (∀ p, Effect.createFile p ∈ effectsOf w (Update x w).1 →
        p = "/tmp/hishtory-client" ∨ p = "/tmp/hishtory-client.intoto.jsonl") ∧
      (∀ contents, Effect.writeConfig contents ∉ effectsOf w (Update x w).1) ∧
      (Update x w).1.binaries = w.binaries) ∧
    ∃ s, Effect.verifyBinary s true ∈ pre := by
  constructor
  · rcases update_shape x w with h | ⟨w2, s, h2, he, hr⟩ | ⟨w2, s, h2, h3⟩
    · have := (effectsOf_extends h.1).2 _ hfail
      cases this
    · obtain ⟨t2, p2⟩ := effectsOf_extends h2.1
      have heff : effectsOf w (Update x w).1 = effectsOf w w2 ++ [.verifyBinary s false] :=
        effectsOf_append w w2 _ _ _ t2 (by rw [he]; rfl)
      rw [heff]
      refine ⟨hr, ?_, ?_, ?_, ?_, ?_, by rw [he]; exact h2.2⟩
      · intro p hp
        rcases List.mem_append.mp hp with h | h
        · cases p2 _ h
        · simp at h
      · intro c a hp
        rcases List.mem_append.mp hp with h | h
        · cases p2 _ h
        · simp at h
      · intro c a hp
        rcases List.mem_append.mp hp with h | h
        · cases p2 _ h
        · simp at h
      · intro p hp
        rcases List.mem_append.mp hp with h | h
        · simpa [Effect.preliminary] using p2 _ h
        · simp at h
      · intro c hp
        rcases List.mem_append.mp hp with h | h
        · cases p2 _ h
        · simp at h
    · obtain ⟨t2, p2⟩ := effectsOf_extends h2.1
      obtain ⟨t3, p3⟩ := effectsOf_extends h3
      have heff := effectsOf_append w w2 (Update x w).1 _
        (.verifyBinary s true :: effectsOf (w2.emit (.verifyBinary s true)) (Update x w).1) t2
        (by rw [t3]; simp [World.emit])
      rw [heff] at hfail
      rcases List.mem_append.mp hfail with h | h
      · cases p2 _ h
      · rcases List.mem_cons.mp h with h | h
        · cases h
        · cases p3 _ h
  · rcases update_shape x' w' with h | ⟨w2, s, h2, he, hr⟩ | ⟨w2, s, h2, h3⟩
    · have := (effectsOf_extends h.1).2 (.unlink path) (by rw [hsplit]; simp)
      cases this
    · obtain ⟨t2, p2⟩ := effectsOf_extends h2.1
      have heff : effectsOf w' (Update x' w').1 = effectsOf w' w2 ++ [.verifyBinary s false] :=
        effectsOf_append w' w2 _ _ _ t2 (by rw [he]; rfl)
      have hm : Effect.unlink path ∈ effectsOf w' w2 ++ [.verifyBinary s false] := by
        rw [← heff, hsplit]; simp
      rcases List.mem_append.mp hm with h | h
      · cases p2 _ h
      · simp at h
    · obtain ⟨t2, p2⟩ := effectsOf_extends h2.1
      obtain ⟨t3, p3⟩ := effectsOf_extends h3
      have heff := effectsOf_append w' w2 (Update x' w').1 _
        (.verifyBinary s true :: effectsOf (w2.emit (.verifyBinary s true)) (Update x' w').1) t2
        (by rw [t3]; simp [World.emit])
      rw [hsplit] at heff
      refine ⟨s, mem_before_of_split heff.symm ?_ (by simp)⟩
      intro hin
      cases p2 _ hin

theorem update_fail_closed_witness :
    Effect.verifyBinary "v0.124-linux-amd64" false ∈
      effectsOf demoWorldTampered (Update demoExt demoWorldTampered).1 ∧
    (∃ msg, (Update demoExt demoWorldTampered).2 = .error msg) ∧
    (Update demoExt demoWorldTampered).1.binaries = ["/home/bob/.hishtory/hishtory"] ∧
    Effect.unlink "/home/bob/.hishtory/hishtory" ∈ effectsOf demoWorld (Update demoExt demoWorld).1 :=
  have h := update_fail_closed demoExt demoWorldTampered "v0.124-linux-amd64" (by decide)
    demoExt demoWorld
    [.httpGet "https://api.hishtory.dev/api/v1/download", .logPrintf "ApiGet(/api/v1/download)",
      .httpGet "https://dl/linux", .createFile "/tmp/hishtory-client",
      .httpGet "https://dl/linux.att", .createFile "/tmp/hishtory-client.intoto.jsonl",
      .verifyBinary "v0.124-linux-amd64" true]
    [.run "chmod" ["+x", "/tmp/hishtory-client"], .run "/tmp/hishtory-client" ["install"],
      .print "Successfully updated hishtory from v0.123 to v0.124"]
    "/home/bob/.hishtory/hishtory" (by rfl)
  ⟨by decide, h.1.1, h.1.2.2.2.2.2.2, by decide⟩

theorem getLogger_ok_frame (w w1 : World) (b : Bool) (h : getLogger w = (w1, .ok b)) :
    w1.trace = w.trace ∧ w1.Version = w.Version ∧ w1.binaries = w.binaries ∧
    w1.tmpClient = w.tmpClient ∧ w1.tmpAttestation = w.tmpAttestation := by
  unfold getLogger at h
  split at h
  · cases h; simp
  · dsimp only at h
    split at h
    · cases h
    · split at h
      · cases h
      · cases h; simp

theorem apiGet_ok (w : World) (path body : String) (h : (ApiGet w path).2 = .ok body) :
    (ApiGet w path).1.trace = w.trace ++ [.httpGet (getServerHostname w ++ path),
      .logPrintf ("ApiGet(" ++ path ++ ")")] ∧
    (ApiGet w path).1.Version = w.Version ∧ (ApiGet w path).1.binaries = w.binaries ∧
    (ApiGet w path).1.tmpClient = w.tmpClient ∧
    (ApiGet w path).1.tmpAttestation = w.tmpAttestation := by
  revert h
  unfold ApiGet logPrintf
  dsimp only
  rcases w.httpGet (getServerHostname w ++ path) with _ | ⟨status, _ | respBody⟩
  · intro h; cases h
  · dsimp only; split <;> (intro h; cases h)
  · dsimp only
    split
    · intro h; cases h
    · rcases hl : getLogger (w.emit (.httpGet (getServerHostname w ++ path))) with
        ⟨w1, (_ | _) | msg | _⟩
      · intro h; cases h
      · intro _
        have := getLogger_ok_frame _ _ _ hl
        simp [World.emit] at this ⊢
        simp [this]
      · intro h; cases h
      · intro h; cases h

/-- C7, amended. When the version that the server reports is `v0.`
followed by the running `Version`, `Update` returns success after its one
request for the update info: it downloads nothing, verifies nothing, runs
nothing and leaves the installed binaries and the temporary files as they
were. -/
theorem update_version_short_circuit (x : Ext) (w : World) (body : String) (info : UpdateInfo)
    (hget : (ApiGet w "/api/v1/download").2 = .ok body)
    (hinfo : x.unmarshalUpdateInfo body = some info)
    (hver : info.Version = "v0." ++ w.Version) :
    (Update x w).2 = .ok () ∧
    effectsOf w (Update x w).1 =
      [.httpGet (getServerHostname w ++ "/api/v1/download"),
        .logPrintf "ApiGet(/api/v1/download)",
        .print ("Latest version (v0." ++ w.Version ++ ") is already installed")] ∧
    (Update x w).1.binaries = w.binaries ∧ (Update x w).1.tmpClient = w.tmpClient ∧
    (Update x w).1.tmpAttestation = w.tmpAttestation := by
  obtain ⟨ht, hv, hb, hc, hat⟩ := apiGet_ok w _ body hget
  have hU : Update x w = ((ApiGet w "/api/v1/download").1.emit
      (.print ("Latest version (v0." ++ w.Version ++ ") is already installed")), .ok ()) := by
    unfold Update
    rcases hA : ApiGet w "/api/v1/download" with ⟨w1, r⟩
    rw [hA] at hget hv
    dsimp only at hget hv
    subst hget
    simp [hinfo, hver, hv]
  rw [hU]
  refine ⟨rfl, ?_, hb, hc, hat⟩
  simp [effectsOf, World.emit, ht]

theorem update_version_short_circuit_witness :
    (ApiGet demoWorldUpToDate "/api/v1/download").2 = .ok "v0.124" ∧
    (Update demoExt demoWorldUpToDate).2 = .ok () ∧
    (Update demoExt demoWorldUpToDate).1.binaries = ["/home/bob/.hishtory/hishtory"] :=
  ⟨rfl,
    (update_version_short_circuit demoExt demoWorldUpToDate "v0.124"
      ⟨"v0.124", "https://dl/linux", "https://dl/linux.att", "https://dl/mac",
        "https://dl/mac.att", "https://dl/arm", "https://dl/arm.att"⟩ rfl rfl rfl).1,
    (update_version_short_circuit demoExt demoWorldUpToDate "v0.124"
      ⟨"v0.124", "https://dl/linux", "https://dl/linux.att", "https://dl/mac",
        "https://dl/mac.att", "https://dl/arm", "https://dl/arm.att"⟩ rfl rfl rfl).2.2.1⟩

/-- C7 fails as stated: the server reports the version string `v0.124`,
which is exactly the running `Version`; `Update` downloads the binary and
its attestation, verifies, and unlinks the installed binary. -/
theorem update_version_short_circuit_counterexample :
    (demoExt.unmarshalUpdateInfo "v0.124").map (fun info => info.Version) =
      some demoWorldSameVersion.Version ∧
    (ApiGet demoWorldSameVersion "/api/v1/download").2 = .ok "v0.124" ∧
    Effect.httpGet "https://dl/linux" ∈
      effectsOf demoWorldSameVersion (Update demoExt demoWorldSameVersion).1 ∧
    Effect.httpGet "https://dl/linux.att" ∈
      effectsOf demoWorldSameVersion (Update demoExt demoWorldSameVersion).1 ∧
    Effect.unlink "/home/bob/.hishtory/hishtory" ∈
      effectsOf demoWorldSameVersion (Update demoExt demoWorldSameVersion).1 := by
  refine ⟨rfl, rfl, ?_, ?_, ?_⟩ <;> decide

/-! ## Install -/

theorem sameStore_trans {w w1 w2 : World} (h1 : SameStore w w1) (h2 : SameStore w1 w2) :
    SameStore w w2 :=
  ⟨h2.1.trans h1.1, h2.2.1.trans h1.2.1, h2.2.2.1.trans h1.2.2.1, h2.2.2.2.trans h1.2.2.2⟩

theorem installBinary_sameStore (w : World) (homedir : String) :
    SameStore w (installBinary w homedir).1 := by
  unfold installBinary
  dsimp only
  generalize (match w.lookPath with
    | some found => found
    | none => pathJoin [homedir, HISHTORY_PATH, "hishtory"]) = clientPath
  generalize hU : (ite (clientPath ∈ w.binaries) _ _ : World × Res Unit) = unl
  have hu : SameStore w unl.1 := by
    rw [← hU]
    split
    · split <;> exact ⟨rfl, rfl, rfl, rfl⟩
    · exact ⟨rfl, rfl, rfl, rfl⟩
  rcases unl with ⟨w1, _ | msg | _⟩
  · dsimp only at hu ⊢
    split
    · exact hu
    · split
      · exact sameStore_trans hu ⟨rfl, rfl, rfl, rfl⟩
      · split <;> exact sameStore_trans hu ⟨rfl, rfl, rfl, rfl⟩
  · exact hu
  · exact hu

theorem configureBashrc_sameStore (w : World) (homedir : String) :
    SameStore w (configureBashrc w homedir).1 := by
  unfold configureBashrc
  split <;> exact ⟨rfl, rfl, rfl, rfl⟩

theorem configureZshrc_sameStore (w : World) (homedir : String) :
    SameStore w (configureZshrc w homedir).1 := by
  unfold configureZshrc
  split <;> exact ⟨rfl, rfl, rfl, rfl⟩

theorem getConfig_sameStore (x : Ext) {w w' : World} (h : SameStore w w') :
    GetConfig x w' = GetConfig x w := by
  unfold GetConfig
  rw [h.1, h.2.2.1, h.2.2.2]

/-- When a config file exists and `GetConfig` reads it, `Install` does not
run `Setup`: the config file and the cache rows are as before. -/
theorem install_configured (x : Ext) (w : World) (config : ClientConfig)
    (h : GetConfig x w = .ok config) :
    (Install x w).1.configFile = w.configFile ∧
    (Install x w).1.history_entries = w.history_entries := by
  unfold Install
  split
  · exact ⟨rfl, rfl⟩
  · rename_i homedir _
    split
    · exact ⟨rfl, rfl⟩
    · have h1 := installBinary_sameStore w homedir
      rcases hI : installBinary w homedir with ⟨w1, _ | _ | _⟩ <;> rw [hI] at h1
      · dsimp only at h1 ⊢
        have h2 := sameStore_trans h1 (configureBashrc_sameStore w1 homedir)
        rcases hB : configureBashrc w1 homedir with ⟨w2, _ | _ | _⟩ <;> rw [hB] at h2
        · dsimp only at h2 ⊢
          have h3 := sameStore_trans h2 (configureZshrc_sameStore w2 homedir)
          rcases hZ : configureZshrc w2 homedir with ⟨w3, _ | _ | _⟩ <;> rw [hZ] at h3
          · dsimp only at h3 ⊢
            rw [getConfig_sameStore x h3, h]
            exact ⟨h3.1, h3.2.1⟩
          · exact ⟨h3.1, h3.2.1⟩
          · exact ⟨h3.1, h3.2.1⟩
        · exact ⟨h2.1, h2.2.1⟩
        · exact ⟨h2.1, h2.2.1⟩
      · exact ⟨h1.1, h1.2.1⟩
      · exact ⟨h1.1, h1.2.1⟩

/-- C6, the code at the failing input: a config file exists but does not
parse, and the cache holds a row; `Install` takes the error of `GetConfig`
for a missing config, runs `Setup`, and the config file is overwritten and
the row is gone from the cache, which holds the bootstrapped entries. -/
theorem install_unparseable_config :
    demoWorldCorruptConfig.configFile = some "\x7b" ∧
    demoWorldCorruptConfig.history_entries = [entryLs] ∧
    GetConfig demoExt demoWorldCorruptConfig = .error "failed to parse config file" ∧
    (Install demoExt demoWorldCorruptConfig).2 = .ok () ∧
    (Install demoExt demoWorldCorruptConfig).1.configFile = some "" ∧
    (Install demoExt demoWorldCorruptConfig).1.history_entries =
      [demoEntry "a", demoEntry "b"] := by
  refine ⟨rfl, rfl, rfl, rfl, rfl, rfl⟩

/-! ## Command capture -/

theorem isPrefixOf_append (p t : List Char) : p.isPrefixOf (p ++ t) = true := by
  induction p with
  | nil => simp [List.isPrefixOf]
  | cons c cs ih => simp [List.isPrefixOf, ih]

theorem replaceFirstChars_prefix (old new t : List Char) :
    replaceFirstChars old new (old ++ t) = new ++ t := by
  cases h : old ++ t with
  | nil =>
    have ho : old = [] := (List.append_eq_nil.mp h).1
    have ht : t = [] := (List.append_eq_nil.mp h).2
    simp [replaceFirstChars, ho, ht]
  | cons c cs =>
    unfold replaceFirstChars
    rw [← h, isPrefixOf_append]
    simp

/-- The part of the cwd formatting that holds: in the home directory
`getCwd` gives `~/`, and below it `~/` followed by the relative path. -/
theorem getCwd_inside_home (w : World) (home rel : String) (hh : w.homedir = some home) :
    (w.getwd = some home → getCwd w = .ok "~/") ∧
    (w.getwd = some (home ++ "/" ++ rel) → getCwd w = .ok ("~/" ++ rel)) := by
  constructor
  · intro hc
    simp [getCwd, hh, hc]
  · intro hc
    have hne : home ++ "/" ++ rel ≠ home := by
      intro he
      have := congrArg String.length he
      simp only [String.length_append] at this
      have h1 : "/".length = 1 := rfl
      omega
    have hp : hasPrefix (home ++ "/" ++ rel) home = true := by
      simp [hasPrefix, String.data_append, List.append_assoc, isPrefixOf_append]
    have hr : replaceFirst (home ++ "/" ++ rel) home "~" = "~/" ++ rel := by
      apply String.ext
      simp [replaceFirst, String.data_append, List.append_assoc, replaceFirstChars_prefix]
    simp [getCwd, hh, hc, hne, hp, hr]

/-- C10, the code at the failing input: the working directory
`/home/bobby` is neither the home directory `/home/bob` nor below it, and
`getCwd` returns `~by` instead of the working directory. -/
theorem getCwd_sibling :
    demoWorldSibling.homedir = some "/home/bob" ∧
    demoWorldSibling.getwd = some "/home/bobby" ∧
    hasPrefix "/home/bobby" "/home/bob/" = false ∧
    getCwd demoWorldSibling = .ok "~by" := by
  refine ⟨rfl, rfl, ?_, ?_⟩ <;> decide

theorem trimSuffix_cons (s suf : String) (c : Char) (r : List Char) (hs : s.data = c :: r)
    (hr : r ≠ []) (hsuf : suf.data.length = 1) :
    ∃ r', (trimSuffix s suf).data = c :: r' ∧
      (r' = r ∨ (hasSuffix s suf = true ∧ r'.length + 1 = r.length)) := by
  unfold trimSuffix
  split
  · rename_i hsfx
    have hlen : r.length ≠ 0 := by
      intro h0; exact hr (List.length_eq_zero.mp h0)
    refine ⟨r.take (r.length - 1), ?_, Or.inr ⟨hsfx, ?_⟩⟩
    · show List.take (s.data.length - suf.data.length) s.data = c :: List.take (r.length - 1) r
      rw [hs, hsuf, List.length_cons, Nat.add_sub_cancel]
      obtain ⟨n, hn⟩ := Nat.exists_eq_succ_of_ne_zero hlen
      rw [hn, List.take_succ_cons]
      rfl
    · rw [List.length_take]
      omega
  · exact ⟨r, hs, Or.inl rfl⟩

theorem zsh_leading_space (a4 : String) (hsp : hasPrefix a4 " " = true) (h1 : a4 ≠ " ")
    (h2 : a4 ≠ " \n") : hasPrefix (trimSuffix (trimSuffix a4 "\n") " ") " " = true := by
  obtain ⟨data⟩ := a4
  cases data with
  | nil => simp [hasPrefix, List.isPrefixOf] at hsp
  | cons c rest =>
    have hc : c = ' ' := by
      simp [hasPrefix, List.isPrefixOf] at hsp
      exact hsp.symm
    subst hc
    have hrest : rest ≠ [] := by
      intro h; subst h; exact h1 rfl
    obtain ⟨r1, e1, hr1⟩ := trimSuffix_cons ⟨' ' :: rest⟩ "\n" ' ' rest rfl hrest rfl
    have hr1ne : r1 ≠ [] := by
      rcases hr1 with h | ⟨hsfx, hl⟩
      · rw [h]; exact hrest
      · intro h
        subst h
        cases rest with
        | nil => exact hrest rfl
        | cons e tl =>
          cases tl with
          | nil =>
            have : e = '\n' := by
              simp [hasSuffix, List.isSuffixOf, List.isPrefixOf] at hsfx
              exact hsfx.symm
            subst this
            exact h2 rfl
          | cons e2 tl2 => simp at hl
    obtain ⟨r2, e2, _⟩ := trimSuffix_cons (trimSuffix ⟨' ' :: rest⟩ "\n") " " ' ' r1 e1 hr1ne rfl
    simp [hasPrefix, e2, List.isPrefixOf]

theorem getConfig_ok (x : Ext) (w : World) (config : ClientConfig)
    (h : GetConfig x w = .ok config) :
    ∃ home data, w.homedir = some home ∧ w.sysOk .readConfig = true ∧
      w.configFile = some data ∧ x.unmarshalConfig data = some config := by
  unfold GetConfig at h
  split at h
  · cases h
  · rename_i home hhome
    split at h
    · split at h <;> cases h
    · rename_i data hdata
      split at h
      · cases h
      · rename_i c hc
        cases h
        refine ⟨home, data, hhome, ?_, ?_, hc⟩
        · by_contra hn
          simp [hn] at hdata
        · by_cases hr : w.sysOk .readConfig = true
          · simpa [hr] using hdata
          · simp [hr] at hdata

theorem shouldSkipHiddenCommand_same (x : Ext) (w : World) (config : ClientConfig)
    (historyLine : String) (h : GetConfig x w = .ok config)
    (hl : config.LastSavedHistoryLine = historyLine) :
    shouldSkipHiddenCommand x w historyLine = (w, .ok true) := by
  simp [shouldSkipHiddenCommand, h, hl]

theorem shouldSkipHiddenCommand_new (x : Ext) (w : World) (config : ClientConfig)
    (historyLine : String) (h : GetConfig x w = .ok config)
    (hl : config.LastSavedHistoryLine ≠ historyLine)
    (hmk : w.sysOk .mkdirHishtoryDir = true) (hwr : w.sysOk .writeConfig = true) :
    shouldSkipHiddenCommand x w historyLine =
      (({ w with configFile := some (x.marshalConfig
          { config with LastSavedHistoryLine := historyLine }) }).emit
        (.writeConfig (x.marshalConfig { config with LastSavedHistoryLine := historyLine })),
        .ok false) := by
  obtain ⟨home, data, hhome, _, _, _⟩ := getConfig_ok x w config h
  simp [shouldSkipHiddenCommand, h, hl, SetConfig, hhome, hmk, hwr]

/-- C8, amended. With the exit code and the start time parsing and the
user, cwd and config operations succeeding, `BuildHistoryEntry` returns
`nil, nil` for bash whenever the command part of the history line begins
with a space, and for zsh whenever `args[4]` begins with a space and is
neither a single space nor a single space followed by a newline. -/
theorem leading_space_dropped (x : Ext) (w : World) (args : List String)
    (shell a3 a4 a5 raw user cwd : String) (exitCode seconds : Int) (config : ClientConfig)
    (hshell : shell = "bash" ∨ shell = "zsh")
    (h2 : args[2]? = some shell) (h3 : args[3]? = some a3) (h4 : args[4]? = some a4)
    (h5 : args[5]? = some a5)
    (hexit : atoi a3 = some exitCode) (hstart : parseCrossPlatformInt a5 = some seconds)
    (huser : w.currentUser = some user) (hcwd : getCwd w = .ok cwd)
    (hconfig : GetConfig x w = .ok config)
    (hmk : w.sysOk .mkdirHishtoryDir = true) (hwr : w.sysOk .writeConfig = true)
    (hraw : rawCommandLine shell a4 = some raw) (hspace : hasPrefix raw " " = true)
    (hzsh : shell = "zsh" → a4 ≠ " " ∧ a4 ≠ " \n") :
    (BuildHistoryEntry x w args).2 = .ok none := by
  unfold BuildHistoryEntry
  simp only [h2, h3, h4, h5, hexit, hstart, huser, hcwd]
  rcases hshell with hb | hz
  · subst hb
    simp only [rawCommandLine, if_true] at hraw
    simp only [if_true, hraw]
    by_cases hl : config.LastSavedHistoryLine = a4
    · rw [shouldSkipHiddenCommand_same x w config a4 hconfig hl]
      simp
    · rw [shouldSkipHiddenCommand_new x w config a4 hconfig hl hmk hwr]
      simp [hspace]
  · subst hz
    have hne : ("zsh" : String) ≠ "bash" := by decide
    simp only [rawCommandLine, hne, if_false, Option.some.injEq] at hraw
    subst hraw
    obtain ⟨n1, n2⟩ := hzsh rfl
    simp [hne, zsh_leading_space a4 hspace n1 n2]

theorem leading_space_dropped_witness :
    rawCommandLine "bash" "  123   ls -la" = some " ls -la" ∧
    (BuildHistoryEntry demoExt demoWorldConfigured
      ["hishtory", "saveHistoryEntry", "bash", "0", "  123   ls -la", "1000"]).2 = .ok none :=
  ⟨by decide,
    leading_space_dropped demoExt demoWorldConfigured
      ["hishtory", "saveHistoryEntry", "bash", "0", "  123   ls -la", "1000"]
      "bash" "0" "  123   ls -la" "1000" " ls -la" "bob" "~/proj" 0 1000
      ⟨"secret", true, "device", "old line"⟩ (Or.inl rfl) rfl rfl rfl rfl (by decide) (by decide)
      rfl (by decide) (by decide) rfl rfl (by decide) (by decide) (by decide)⟩

/-- C8 fails as stated: under zsh the raw command line of a single space
begins with a space, and `BuildHistoryEntry` returns an entry for it, with
the empty command. -/
theorem leading_space_dropped_counterexample :
    rawCommandLine "zsh" " " = some " " ∧ hasPrefix " " " " = true ∧
    GetConfig demoExt demoWorldConfigured = .ok ⟨"secret", true, "device", "old line"⟩ ∧
    (BuildHistoryEntry demoExt demoWorldConfigured
      ["hishtory", "saveHistoryEntry", "zsh", "0", " ", "1000"]).2 =
      .ok (some ⟨"bob", "laptop", "", "~/proj", 0, 1000, 1000⟩) := by
  refine ⟨?_, ?_, ?_, ?_⟩ <;> decide

theorem shouldSkipHiddenCommand_ok (x : Ext) (w : World) (historyLine : String) (b : Bool)
    (h : (shouldSkipHiddenCommand x w historyLine).2 = .ok b) :
    ∃ config, GetConfig x w = .ok config ∧
      ((config.LastSavedHistoryLine = historyLine ∧
          (shouldSkipHiddenCommand x w historyLine).1 = w) ∨
        (config.LastSavedHistoryLine ≠ historyLine ∧
          (shouldSkipHiddenCommand x w historyLine).1 =
            ({ w with configFile := some (x.marshalConfig
              { config with LastSavedHistoryLine := historyLine }) }).emit
            (.writeConfig (x.marshalConfig
              { config with LastSavedHistoryLine := historyLine })))) := by
  revert h
  unfold shouldSkipHiddenCommand
  rcases hg : GetConfig x w with config | msg | _
  · obtain ⟨home, data, hhome, _, _, _⟩ := getConfig_ok x w config hg
    dsimp only
    by_cases hl : config.LastSavedHistoryLine = historyLine
    · intro _
      exact ⟨config, rfl, Or.inl ⟨hl, by simp [hl]⟩⟩
    · simp only [hl, if_false, SetConfig, hhome]
      by_cases hmk : w.sysOk .mkdirHishtoryDir = true
      · by_cases hwr : w.sysOk .writeConfig = true
        · intro _
          exact ⟨config, rfl, Or.inr ⟨hl, by simp [hmk, hwr]⟩⟩
        · simp [hmk, hwr]
      · simp [hmk]
  · intro h; cases h
  · intro h; cases h

theorem buildHistoryEntry_bash_ok (x : Ext) (w : World) (args : List String)
    (line : String) (r : Option HistoryEntry)
    (h2 : args[2]? = some "bash") (h4 : args[4]? = some line) :
    (BuildHistoryEntry x w args).2 = .ok r →
    ∃ user cwd cmd b, w.currentUser = some user ∧ getCwd w = .ok cwd ∧
      getLastCommand line = some cmd ∧ (shouldSkipHiddenCommand x w line).2 = .ok b ∧
      (BuildHistoryEntry x w args).1 = (shouldSkipHiddenCommand x w line).1 := by
  unfold BuildHistoryEntry
  simp only [h2, h4, if_true]
  rcases args[3]? with _ | a3
  · intro h; cases h
  dsimp only
  rcases atoi a3 with _ | exitCode
  · intro h; cases h
  dsimp only
  rcases w.currentUser with _ | user
  · intro h; cases h
  dsimp only
  rcases getCwd w with cwd | msg | _
  · dsimp only
    rcases args[5]? with _ | a5
    · intro h; cases h
    dsimp only
    rcases parseCrossPlatformInt a5 with _ | seconds
    · intro h; cases h
    dsimp only
    rcases getLastCommand line with _ | cmd
    · intro h; cases h
    dsimp only
    rcases shouldSkipHiddenCommand x w line with ⟨w1, b | msg | _⟩
    · dsimp only
      intro _
      refine ⟨user, cwd, cmd, b, rfl, rfl, rfl, rfl, ?_⟩
      split
      · rfl
      · split <;> rfl
    · intro h; cases h
    · intro h; cases h
  · intro h; cases h
  · intro h; cases h

theorem buildHistoryEntry_bash_skip (x : Ext) (w : World) (args : List String)
    (a3 line a5 user cwd cmd : String) (exitCode seconds : Int) (config : ClientConfig)
    (h2 : args[2]? = some "bash") (h3 : args[3]? = some a3) (h4 : args[4]? = some line)
    (h5 : args[5]? = some a5)
    (hexit : atoi a3 = some exitCode) (hstart : parseCrossPlatformInt a5 = some seconds)
    (huser : w.currentUser = some user) (hcwd : getCwd w = .ok cwd)
    (hcmd : getLastCommand line = some cmd)
    (hconfig : GetConfig x w = .ok config) (hl : config.LastSavedHistoryLine = line) :
    BuildHistoryEntry x w args = (w, .ok none) := by
  unfold BuildHistoryEntry
  simp only [h2, h3, h4, h5, hexit, hstart, huser, hcwd, hcmd, if_true]
  rw [shouldSkipHiddenCommand_same x w config line hconfig hl]
  simp

theorem getConfig_after_write (x : Ext) (w : World) (config written : ClientConfig)
    (h : GetConfig x w = .ok config)
    (hcodec : x.unmarshalConfig (x.marshalConfig written) = some written) (e : Effect) :
    GetConfig x (({ w with configFile := some (x.marshalConfig written) }).emit e) =
      .ok written := by
  obtain ⟨home, data, hhome, hread, _, _⟩ := getConfig_ok x w config h
  simp [GetConfig, World.emit, hhome, hread, hcodec]

/-- C9, amended. After a bash capture of the history line `line` that
returns without error, a bash capture of the same line whose exit code and
start time are there and parse returns `nil, nil` and leaves the world,
and so the stored config whose marker is `line`, as it is, provided the
config that the first capture wrote reads back as written. A bash capture
of a line other than the stored marker that reaches the marker check (the
arguments are there and parse, the user and cwd lookups succeed, the line
has a command part) with the config readable and writable is not skipped
by the marker rule and stores the config with the marker set to the new
line and the other fields unchanged; it yields the entry when the command
has no leading space and the host name is known. -/
theorem bash_duplicate_capture (x : Ext)
    (w : World) (args args2 : List String) (line b3 b5 : String) (r1 : Option HistoryEntry)
    (exit2 start2 : Int)
    (ha2 : args[2]? = some "bash") (ha4 : args[4]? = some line)
    (hfirst : (BuildHistoryEntry x w args).2 = .ok r1)
    (hcodec : ∀ c, GetConfig x w = .ok c →
      x.unmarshalConfig (x.marshalConfig { c with LastSavedHistoryLine := line }) =
        some { c with LastSavedHistoryLine := line })
    (hb2 : args2[2]? = some "bash") (hb3 : args2[3]? = some b3) (hb4 : args2[4]? = some line)
    (hb5 : args2[5]? = some b5)
    (hexit2 : atoi b3 = some exit2) (hstart2 : parseCrossPlatformInt b5 = some start2)
    (v : World) (args' : List String) (line' a3 a5 user cwd cmd : String)
    (exitCode seconds : Int) (config : ClientConfig)
    (hc2 : args'[2]? = some "bash") (hc3 : args'[3]? = some a3) (hc4 : args'[4]? = some line')
    (hc5 : args'[5]? = some a5)
    (hexit : atoi a3 = some exitCode) (hstart : parseCrossPlatformInt a5 = some seconds)
    (huser : v.currentUser = some user) (hcwd : getCwd v = .ok cwd)
    (hcmd : getLastCommand line' = some cmd)
    (hconfig : GetConfig x v = .ok config) (hdiff : config.LastSavedHistoryLine ≠ line')
    (hmk : v.sysOk .mkdirHishtoryDir = true) (hwr : v.sysOk .writeConfig = true) :
    (BuildHistoryEntry x (BuildHistoryEntry x w args).1 args2 =
        ((BuildHistoryEntry x w args).1, .ok none) ∧
      ∃ stored, GetConfig x (BuildHistoryEntry x w args).1 = .ok stored ∧
        stored.LastSavedHistoryLine = line) ∧
    ((shouldSkipHiddenCommand x v line').2 = .ok false ∧
      (BuildHistoryEntry x v args').1.configFile =
        some (x.marshalConfig
          { UserSecret := config.UserSecret, IsEnabled := config.IsEnabled,
            DeviceId := config.DeviceId, LastSavedHistoryLine := line' }) ∧
      (x.unmarshalConfig (x.marshalConfig { config with LastSavedHistoryLine := line' }) =
          some { config with LastSavedHistoryLine := line' } →
        GetConfig x (BuildHistoryEntry x v args').1 =
          .ok { UserSecret := config.UserSecret, IsEnabled := config.IsEnabled,
                DeviceId := config.DeviceId, LastSavedHistoryLine := line' }) ∧
      (∀ host, v.osHostname = some host → hasPrefix cmd " " = false →
        (BuildHistoryEntry x v args').2 = .ok (some
          { LocalUsername := user, Hostname := host, Command := cmd,
            CurrentWorkingDirectory := cwd, ExitCode := exitCode, StartTime := seconds,
            EndTime := v.now }))) := by
  constructor
  · obtain ⟨user1, cwd1, cmd1, b, hu1, hcwd1, hcmd1, hskip, hw1⟩ :=
      buildHistoryEntry_bash_ok x w args line r1 ha2 ha4 hfirst
    obtain ⟨c, hc, hcase⟩ := shouldSkipHiddenCommand_ok x w line b hskip
    rw [hw1]
    have key : ∀ w1 : World, w1.currentUser = w.currentUser → getCwd w1 = getCwd w →
        (∃ stored, GetConfig x w1 = .ok stored ∧ stored.LastSavedHistoryLine = line) →
        BuildHistoryEntry x w1 args2 = (w1, .ok none) ∧
        ∃ stored, GetConfig x w1 = .ok stored ∧ stored.LastSavedHistoryLine = line := by
      intro w1 e1 e2 hst
      obtain ⟨stored, hs1, hs2⟩ := hst
      exact ⟨buildHistoryEntry_bash_skip x w1 args2 b3 line b5 user1 cwd1 cmd1 exit2 start2 stored
        hb2 hb3 hb4 hb5 hexit2 hstart2 (e1.trans hu1) (e2.trans hcwd1) hcmd1 hs1 hs2,
        stored, hs1, hs2⟩
    rcases hcase with ⟨hl, hw⟩ | ⟨hl, hw⟩
    · rw [hw]
      exact key w rfl rfl ⟨c, hc, hl⟩
    · rw [hw]
      exact key _ rfl rfl ⟨_, getConfig_after_write x w c _ hc (hcodec c hc) _, rfl⟩
  · have hskip := shouldSkipHiddenCommand_new x v config line' hconfig hdiff hmk hwr
    have hw : (BuildHistoryEntry x v args').1 = (shouldSkipHiddenCommand x v line').1 := by
      unfold BuildHistoryEntry
      simp only [hc2, hc3, hc4, hc5, hexit, hstart, huser, hcwd, hcmd, if_true]
      rw [hskip]
      dsimp only
      split
      · rfl
      · split <;> rfl
    refine ⟨by rw [hskip], ?_, ?_, ?_⟩
    · rw [hw, hskip]
      rfl
    · intro hcodec'
      rw [hw, hskip]
      exact getConfig_after_write x v config _ hconfig hcodec' _
    · intro host hhost hns
      unfold BuildHistoryEntry
      simp only [hc2, hc3, hc4, hc5, hexit, hstart, huser, hcwd, hcmd, if_true]
      rw [hskip]
      simp [hns, World.emit, hhost]

theorem bash_duplicate_capture_witness :
    (BuildHistoryEntry demoExt demoWorldConfigured (demoBashArgs "  123  ls -la")).2 =
      .ok (some ⟨"bob", "laptop", "ls -la", "~/proj", 0, 1000, 1000⟩) ∧
    BuildHistoryEntry demoExt
      (BuildHistoryEntry demoExt demoWorldConfigured (demoBashArgs "  123  ls -la")).1
      (demoBashArgs "  123  ls -la") =
      ((BuildHistoryEntry demoExt demoWorldConfigured (demoBashArgs "  123  ls -la")).1,
        .ok none) ∧
    GetConfig demoExt
      (BuildHistoryEntry demoExt demoWorldConfigured (demoBashArgs "  124  make")).1 =
      .ok ⟨"secret", true, "device", "  124  make"⟩ := by
  have hcodec : ∀ c, GetConfig demoExt demoWorldConfigured = .ok c →
      demoExt.unmarshalConfig (demoExt.marshalConfig
        { c with LastSavedHistoryLine := "  123  ls -la" }) =
      some { c with LastSavedHistoryLine := "  123  ls -la" } := by
    intro c hc
    have hg : GetConfig demoExt demoWorldConfigured =
        .ok ⟨"secret", true, "device", "old line"⟩ := by decide
    rw [hg] at hc
    cases hc
    decide
  have h := bash_duplicate_capture demoExt demoWorldConfigured (demoBashArgs "  123  ls -la")
    (demoBashArgs "  123  ls -la") "  123  ls -la" "0" "1000"
    (some ⟨"bob", "laptop", "ls -la", "~/proj", 0, 1000, 1000⟩) 0 1000
    rfl rfl (by decide) hcodec rfl rfl rfl rfl (by decide) (by decide)
    demoWorldConfigured (demoBashArgs "  124  make") "  124  make" "0" "1000" "bob" "~/proj"
    "make" 0 1000 ⟨"secret", true, "device", "old line"⟩
    rfl rfl rfl rfl (by decide) (by decide) rfl (by decide) (by decide) (by decide)
    (by decide) rfl rfl
  exact ⟨by decide, h.1.1, h.2.2.2.1 (by decide)⟩

/-- C9 fails as stated. The line `ls` differs from the stored marker
`old line`, yet its capture sets no marker: `getLastCommand` is out of
range on it before the marker is looked at, and the config file is as
before. And after a capture of the line `  123  ls -la` that returns an
entry, a capture of the same line whose exit code does not parse returns
an error, not `nil, nil`. -/
theorem bash_duplicate_capture_counterexample :
    GetConfig demoExt demoWorldConfigured = .ok ⟨"secret", true, "device", "old line"⟩ ∧
    (BuildHistoryEntry demoExt demoWorldConfigured (demoBashArgs "ls")).2 = .panic ∧
    (BuildHistoryEntry demoExt demoWorldConfigured (demoBashArgs "ls")).1.configFile =
      some "old line" ∧
    (BuildHistoryEntry demoExt demoWorldConfigured (demoBashArgs "  123  ls -la")).2 =
      .ok (some ⟨"bob", "laptop", "ls -la", "~/proj", 0, 1000, 1000⟩) ∧
    (BuildHistoryEntry demoExt
      (BuildHistoryEntry demoExt demoWorldConfigured (demoBashArgs "  123  ls -la")).1
      ["hishtory", "saveHistoryEntry", "bash", "oops", "  123  ls -la", "1000"]).2 =
      .error "failed to build history entry" := by
  refine ⟨?_, ?_, ?_, ?_, ?_⟩ <;> decide

theorem span_space (l : List Char) :
    (' ' ∉ l ∧ l.span (fun c => c != ' ') = (l, [])) ∨
    ∃ a rest, l = a ++ ' ' :: rest ∧ ' ' ∉ a ∧ l.span (fun c => c != ' ') = (a, ' ' :: rest) := by
  rw [List.span_eq_take_drop]
  induction l with
  | nil => exact Or.inl ⟨by simp, rfl⟩
  | cons c cs ih =>
    by_cases hc : c = ' '
    · subst hc
      exact Or.inr ⟨[], cs, rfl, by simp, by simp [List.takeWhile, List.dropWhile]⟩
    · have hp : (c != ' ') = true := by simpa using hc
      rcases ih with ⟨hn, he⟩ | ⟨a, rest, hl, hn, he⟩
      · left
        refine ⟨by simp [hn, Ne.symm hc], ?_⟩
        simp only [Prod.mk.injEq] at he
        simp [List.takeWhile, List.dropWhile, hp, he.1, he.2]
      · right
        simp only [Prod.mk.injEq] at he
        refine ⟨c :: a, rest, by rw [hl]; rfl, by simp [hn, Ne.symm hc], ?_⟩
        simp [List.takeWhile, List.dropWhile, hp, he.1, he.2]

theorem splitN2_second_none (s : String) (h : ' ' ∉ s.data) : (splitN2 s)[1]? = none := by
  rcases span_space s.data with ⟨_, he⟩ | ⟨a, rest, hl, _, _⟩
  · unfold splitN2
    rw [he]
    rfl
  · exact absurd (by rw [hl]; simp) h

theorem splitN2_second_some (s : String) (a rest : List Char) (hs : s.data = a ++ ' ' :: rest)
    (ha : ' ' ∉ a) : (splitN2 s)[1]? = some ⟨rest⟩ := by
  rcases span_space s.data with ⟨hn, _⟩ | ⟨a', rest', hl, hn, he⟩
  · exact absurd (by rw [hs]; simp) hn
  · have hsame : a' = a ∧ rest' = rest := by
      rw [hs] at hl
      rcases List.append_eq_append_iff.mp hl with ⟨t, h1, h2⟩ | ⟨t, h1, h2⟩
      · cases t with
        | nil =>
          simp only [List.nil_append, List.cons.injEq, true_and] at h2
          simp only [List.append_nil] at h1
          exact ⟨h1, h2.symm⟩
        | cons c t' =>
          simp only [List.cons_append, List.cons.injEq] at h2
          exact absurd (by rw [h1, ← h2.1]; simp) hn
      · cases t with
        | nil =>
          simp only [List.nil_append, List.cons.injEq, true_and] at h2
          simp only [List.append_nil] at h1
          exact ⟨h1.symm, h2⟩
        | cons c t' =>
          simp only [List.cons_append, List.cons.injEq] at h2
          exact absurd (by rw [h1, ← h2.1]; simp) ha
    unfold splitN2
    rw [he, hsame.2]
    rfl

theorem getLastCommand_some (history : String) (h : 2 ≤ trimmedSpaces history) :
    ∃ a b rest, (trimSpace history).data = a ++ ' ' :: (b ++ ' ' :: rest) ∧
      ' ' ∉ a ∧ ' ' ∉ b ∧ getLastCommand history = some ⟨rest⟩ := by
  unfold trimmedSpaces at h
  rcases span_space (trimSpace history).data with ⟨hn, _⟩ | ⟨a, r1, hl, ha, _⟩
  · rw [List.count_eq_zero.mpr hn] at h
    omega
  · have hc : 1 ≤ r1.count ' ' := by
      rw [hl, List.count_append, List.count_cons_self, List.count_eq_zero.mpr ha] at h
      omega
    rcases span_space r1 with ⟨hn, _⟩ | ⟨b, rest, hl2, hb, _⟩
    · rw [List.count_eq_zero.mpr hn] at hc
      omega
    · refine ⟨a, b, rest, by rw [hl, hl2], ha, hb, ?_⟩
      unfold getLastCommand
      rw [splitN2_second_some (trimSpace history) a r1 hl ha]
      exact splitN2_second_some ⟨r1⟩ b rest hl2 hb

theorem getLastCommand_none (history : String) (h : trimmedSpaces history < 2) :
    getLastCommand history = none := by
  unfold trimmedSpaces at h
  unfold getLastCommand
  rcases span_space (trimSpace history).data with ⟨hn, _⟩ | ⟨a, r1, hl, ha, _⟩
  · rw [splitN2_second_none _ hn]
  · rw [splitN2_second_some (trimSpace history) a r1 hl ha]
    have hc : r1.count ' ' = 0 := by
      rw [hl, List.count_append, List.count_cons_self, List.count_eq_zero.mpr ha] at h
      omega
    exact splitN2_second_none ⟨r1⟩ (List.count_eq_zero.mp hc)

theorem getConfig_no_panic (x : Ext) (w : World) : GetConfig x w ≠ .panic := by
  unfold GetConfig
  split
  · simp
  · split
    · split <;> simp
    · split <;> simp

theorem setConfig_no_panic (x : Ext) (w : World) (config : ClientConfig) :
    (SetConfig x w config).2 ≠ .panic := by
  unfold SetConfig
  dsimp only
  split
  · simp
  · split
    · simp
    · split <;> simp

theorem shouldSkipHiddenCommand_no_panic (x : Ext) (w : World) (historyLine : String) :
    (shouldSkipHiddenCommand x w historyLine).2 ≠ .panic := by
  unfold shouldSkipHiddenCommand
  rcases hG : GetConfig x w with config | msg | _
  · dsimp only
    split
    · simp
    · have hs := setConfig_no_panic x w { config with LastSavedHistoryLine := historyLine }
      rcases hS : SetConfig x w { config with LastSavedHistoryLine := historyLine } with
        ⟨w1, _ | msg | _⟩
      · simp
      · simp
      · rw [hS] at hs
        exact absurd rfl hs
  · simp
  · exact absurd hG (getConfig_no_panic x w)

/-- C12, amended. On a history line whose trimmed form has at least two
spaces `getLastCommand` returns what follows the second space of the
trimmed line, so `  123  ls -la` gives `ls -la` and a leading space of the
command is kept; on a line whose trimmed form has fewer than two spaces
the indexing is out of range and nothing is returned. A bash capture that
reaches the command step (the arguments are there, the exit code and the
start time parse, the user and cwd lookups succeed) ends without an
out-of-range failure exactly on the lines of the first kind. -/
theorem getLastCommand_well_formed (good bad : String)
    (hgood : 2 ≤ trimmedSpaces good) (hbad : trimmedSpaces bad < 2)
    (x : Ext) (w : World) (args : List String) (line a3 a5 user cwd : String)
    (exitCode seconds : Int)
    (h2 : args[2]? = some "bash") (h3 : args[3]? = some a3) (h4 : args[4]? = some line)
    (h5 : args[5]? = some a5)
    (hexit : atoi a3 = some exitCode) (hstart : parseCrossPlatformInt a5 = some seconds)
    (huser : w.currentUser = some user) (hcwd : getCwd w = .ok cwd) :
    (∃ a b rest, (trimSpace good).data = a ++ ' ' :: (b ++ ' ' :: rest) ∧
      ' ' ∉ a ∧ ' ' ∉ b ∧ getLastCommand good = some ⟨rest⟩) ∧
    getLastCommand bad = none ∧
    getLastCommand "  123  ls -la" = some "ls -la" ∧
    getLastCommand "  123   ls -la" = some " ls -la" ∧
    ((BuildHistoryEntry x w args).2 ≠ .panic ↔ 2 ≤ trimmedSpaces line) := by
  refine ⟨getLastCommand_some good hgood, getLastCommand_none bad hbad, by decide, by decide, ?_⟩
  unfold BuildHistoryEntry
  simp only [h2, h3, h4, h5, hexit, hstart, huser, hcwd, if_true]
  by_cases hl : 2 ≤ trimmedSpaces line
  · obtain ⟨_, _, rest, _, _, _, hcmd⟩ := getLastCommand_some line hl
    simp only [hcmd, hl, iff_true]
    have hs := shouldSkipHiddenCommand_no_panic x w line
    rcases hS : shouldSkipHiddenCommand x w line with ⟨w1, b | msg | _⟩
    · dsimp only
      split
      · simp
      · split <;> simp
    · simp
    · rw [hS] at hs
      exact absurd rfl hs
  · have hcmd := getLastCommand_none line (by omega)
    simp [hcmd, hl]

theorem getLastCommand_well_formed_witness :
    2 ≤ trimmedSpaces "  123  ls -la" ∧ trimmedSpaces "ls" < 2 ∧
    getLastCommand "ls" = none ∧
    (BuildHistoryEntry demoExt demoWorldConfigured (demoBashArgs "  123  ls -la")).2 ≠ .panic :=
  have h := getLastCommand_well_formed "  123  ls -la" "ls" (by decide) (by decide)
    demoExt demoWorldConfigured (demoBashArgs "  123  ls -la") "  123  ls -la" "0" "1000"
    "bob" "~/proj" 0 1000 rfl rfl rfl rfl (by decide) (by decide) rfl (by decide)
  ⟨by decide, by decide, h.2.1, h.2.2.2.2.mpr (by decide)⟩

/-- C12 fails as stated in its last sentence: a bash capture of the line
`ls`, which has no space, with an exit code that does not parse, returns
an error, not an out-of-range failure; and a bash capture of the
well-formed line `  123  ls -la` without the start-time argument ends in
an out-of-range failure. -/
theorem getLastCommand_well_formed_counterexample :
    trimmedSpaces "ls" = 0 ∧
    (BuildHistoryEntry demoExt demoWorldConfigured
      ["hishtory", "saveHistoryEntry", "bash", "oops", "ls", "1000"]).2 =
      .error "failed to build history entry" ∧
    2 ≤ trimmedSpaces "  123  ls -la" ∧
    (BuildHistoryEntry demoExt demoWorldConfigured
      ["hishtory", "saveHistoryEntry", "bash", "0", "  123  ls -la"]).2 = .panic := by
  refine ⟨?_, ?_, ?_, ?_⟩ <;> decide

/-! ## SyncClient -/

/-- C11, amended. When the HTTP exchange of an `ApiGet` succeeds with
status 200 and the body is read, the call returns exactly the body, with
no error, when the log sink can be used: it is already open, or it is
opened now, the home directory lookup and the opening of `hishtory.log`
succeeding. When the sink cannot be used the call panics instead of
returning. The same holds of `ApiPost`, on its own exchange. -/
theorem api_logging (w : World) (path body : String)
    (hget : w.httpGet (getServerHostname w ++ path) = .response 200 (some body))
    (w' : World) (path' contentType data body' : String)
    (hpost : w'.httpPost (getServerHostname w' ++ path') contentType data =
      .response 200 (some body')) :
    (ApiGet w path).2 = (if logSinkAvailable w then .ok body else .panic) ∧
    (ApiPost w' path' contentType data).2 =
      (if logSinkAvailable w' then .ok body' else .panic) := by
  constructor
  · unfold ApiGet logPrintf getLogger logSinkAvailable
    simp only [hget, World.emit]
    cases h1 : w.getLoggerOnce <;> cases h2 : w.hishtoryLogger <;> cases h3 : w.homedir <;>
      cases h4 : w.sysOk .openLog <;> simp [h1, h2, h3, h4]
  · unfold ApiPost logPrintf getLogger logSinkAvailable
    simp only [hpost, World.emit]
    cases h1 : w'.getLoggerOnce <;> cases h2 : w'.hishtoryLogger <;> cases h3 : w'.homedir <;>
      cases h4 : w'.sysOk .openLog <;> simp [h1, h2, h3, h4]

theorem api_logging_witness :
    (ApiGet demoWorld "/api/v1/download").2 = .ok "v0.124" ∧
    (ApiPost demoWorldPosting "/api/v1/esubmit" "application/json" "[]").2 = .ok "posted" :=
  api_logging demoWorld "/api/v1/download" "v0.124" rfl
    demoWorldPosting "/api/v1/esubmit" "application/json" "[]" "posted" rfl

/-- C11 fails as stated: the server answers the GET and the POST with
status 200 and a body, and the call panics, both when `hishtory.log`
cannot be opened and when the home directory lookup fails. -/
theorem api_logging_counterexample :
    demoWorldNoLog.httpGet (getServerHostname demoWorldNoLog ++ "/api/v1/download") =
      .response 200 (some "v0.124") ∧
    demoWorldNoLog.httpPost (getServerHostname demoWorldNoLog ++ "/api/v1/download")
      "application/json" "[]" = .response 200 (some "posted") ∧
    (ApiGet demoWorldNoLog "/api/v1/download").2 = .panic ∧
    (ApiPost demoWorldNoLog "/api/v1/download" "application/json" "[]").2 = .panic ∧
    (ApiGet demoWorldNoHome "/api/v1/download").2 = .panic ∧
    (ApiPost demoWorldNoHome "/api/v1/download" "application/json" "[]").2 = .panic := by
  refine ⟨rfl, rfl, rfl, rfl, rfl, rfl⟩

end Hishtory
